import Mathlib

/-!
Verification of the GOAT scraping pipeline (goatPDPAPI.py, listingsAPI.py,
upload_goat_images.py) against its natural-language specification.

The Python sources are shallowly embedded: pure transformations become Lean
functions over an explicit JSON value type `Jval`; the network is an oracle
argument (a function from attempt index / key to the outcome the remote side
produces); `while True` pagination loops take an explicit fuel argument;
Python exceptions that the source catches are modelled with `Option`/`Except`.
-/

/-- A Python/JSON value, as handled by the scraping scripts.  `num` carries a
rational standing for a Python int/float, `obj` an association list standing
for a dict (keys unique in practice, first binding wins on lookup). -/
inductive Jval where
  | null
  | bool (b : Bool)
  | num (q : ℚ)
  | str (s : String)
  | arr (xs : List Jval)
  | obj (fields : List (String × Jval))

/-- Python truthiness of a value (`if x:`): `None`, `False`, `0`, `""`,
`[]` and `{}` are falsy, everything else truthy. -/
def Jval.truthy : Jval → Bool
  | .null => false
  | .bool b => b
  | .num q => q ≠ 0
  | .str s => s ≠ ""
  | .arr xs => ¬ xs.isEmpty
  | .obj fs => ¬ fs.isEmpty

/-- Model of `d.get(k)` on a dict: `some v` when the key is bound, `none` when the key
is absent or the receiver is not a dict (callers decide whether the latter is
an exception; see each use site). -/
def Jval.getKey : Jval → String → Option Jval
  | .obj fs, k => fs.lookup k
  | _, _ => none

/-- Model of `v.get(k, d)` where the receiver must be a dict: `none` models the
`AttributeError` Python raises when `v` is not a dict; otherwise the bound
value or the default. -/
def Jval.getD : Jval → String → Jval → Option Jval
  | .obj fs, k, d => some ((fs.lookup k).getD d)
  | _, _, _ => none

/-- Digits of a decimal literal to a natural number; `none` on a non-digit or
on the empty list. -/
def digitsToNat : List Char → Option Nat
  | [] => none
  | cs =>
    cs.foldl (fun acc c =>
      match acc with
      | none => none
      | some n => if c.isDigit then some (n * 10 + (c.toNat - 48)) else none)
      (some 0)

/-- Model of Python `str.strip()`: drop leading and trailing whitespace.
(Implemented on the character list so that it evaluates inside the kernel.) -/
def pyStrip (s : String) : String :=
  String.mk
    (((s.toList.dropWhile Char.isWhitespace).reverse.dropWhile
      Char.isWhitespace).reverse)

/-- Model of Python `float(s)` on strings: optional sign, decimal digits with
an optional fractional part, surrounding whitespace stripped.  (Exponent,
`inf` and `nan` forms are outside the model; they return `none` here.) -/
def parseFloat (s : String) : Option ℚ :=
  let cs := (pyStrip s).toList
  let signAndRest : Int × List Char :=
    match cs with
    | '-' :: rest => (-1, rest)
    | '+' :: rest => (1, rest)
    | _ => (1, cs)
  let sgn := signAndRest.1
  let body := signAndRest.2
  let intPart := body.takeWhile (· ≠ '.')
  match body.dropWhile (· ≠ '.') with
  | [] => (digitsToNat intPart).map (fun n => mkRat (sgn * n) 1)
  | '.' :: frac =>
    if intPart.isEmpty ∧ frac.isEmpty then none
    else
      let ip : Option Nat := if intPart.isEmpty then some 0 else digitsToNat intPart
      let fp : Option Nat := if frac.isEmpty then some 0 else digitsToNat frac
      match ip, fp with
      | some i, some f =>
        some (mkRat (sgn * ((i : Int) * 10 ^ frac.length + f)) (10 ^ frac.length))
      | _, _ => none
  | _ => none

/-- First `k` decimal digits of the fractional part of a rational. -/
def fracDigitsList : ℚ → Nat → List Nat
  | _, 0 => []
  | x, Nat.succ k =>
    let y := x * 10
    let d := y.floor.toNat
    d :: fracDigitsList (y - (d : ℚ)) k

/-- Decimal rendering of a rational, standing for Python `str(float(x))`:
integer part, a dot, then the fractional digits with trailing zeros dropped
(at least one digit, so whole numbers render as `n.0`). -/
def renderFloat (q : ℚ) : String :=
  let sgn := if q < 0 then "-" else ""
  let a := if q < 0 then -q else q
  let ip := a.floor.toNat
  let ds := fracDigitsList (a - (ip : ℚ)) 12
  let ds := (ds.reverse.dropWhile (· = 0)).reverse
  let ds := if ds.isEmpty then [0] else ds
  sgn ++ toString ip ++ "." ++ String.join (ds.map toString)

/-- Two-decimals rendering of a rational, standing for Python `f-string`
formatting with `.2f`. -/
def fmt2f (q : ℚ) : String :=
  let neg := q < 0
  let a := if neg then -q else q
  let cents : Nat := (round (a * 100)).toNat
  (if neg then "-" else "") ++ toString (cents / 100) ++ "." ++
    (if cents % 100 < 10 then "0" else "") ++ toString (cents % 100)

/-! ## Transport chain and retry controller (goatPDPAPI.fetch_product_data,
listingsAPI.fetch_json_page)

The two JSON fetchers are syntactically identical in every respect the spec
talks about (same transport fallback order, same `range(MAX_RETRIES)` loop,
same 429 / non-200 / JSON-error handling and waits; `fetch_json_page`'s extra
`json.loads(resp.text)` fallback is absorbed into `RespJ.json`, which is
`none` only when every parse attempt of the body failed).  They are embedded
once. -/

/-- A response as seen by the JSON fetchers: the effective status code
(`last_status` after the `status_code`/`status` getattr dance) and the result
of `resp.json()` (`none` = the body did not parse as JSON). -/
structure RespJ where
  status : Nat
  json : Option Jval

/-- What each transport strategy produces on one attempt.
`curl` is `try_curl_cffi`'s return value (`none` covers curl_cffi being
unavailable and every persona raising), `cloud` is `try_cloudscraper`'s
(`none` = it raised internally), and `req` is the plain
`requests.Session().get` fallback (`Except.error` = it raised). -/
structure EnvPDP where
  curl : Option RespJ
  cloud : Option RespJ
  req : Except Unit RespJ

/-- The transport chain of `fetch_product_data` / `fetch_json_page`:
curl_cffi first, then cloudscraper, then plain requests; a strategy is
skipped exactly when it produced no response. -/
def chainPDP (e : EnvPDP) : Except Unit RespJ :=
  match e.curl with
  | some r => .ok r
  | none =>
    match e.cloud with
    | some r => .ok r
    | none => e.req

/-- Retry delay base for ordinary failures (`wait = 1 + attempt`). -/
def baseDelay : Nat := 1

/-- Retry delay base for HTTP 429 (`wait = 2 + attempt`). -/
def rateLimitBaseDelay : Nat := 2

/-- Outcome of one iteration of the retry loop: either the parsed JSON, or a
retry together with the number of seconds slept before the next attempt. -/
inductive StepOut where
  | success (d : Jval)
  | retry (wait : Nat)

/-- One iteration of the retry loop of `fetch_product_data` /
`fetch_json_page` at 0-indexed attempt `i`: run the full transport chain,
then branch on 429 / non-200 / JSON-parse failure exactly as the source
does; any exception from the chain falls into the outer `except` with the
same `1 + attempt` wait. -/
def attemptStepPDP (e : EnvPDP) (i : Nat) : StepOut :=
  match chainPDP e with
  | .error _ => .retry (baseDelay + i)
  | .ok r =>
    if r.status = 429 then .retry (rateLimitBaseDelay + i)
    else if r.status ≠ 200 then .retry (baseDelay + i)
    else
      match r.json with
      | none => .retry (baseDelay + i)
      | some d => .success d

/-- Result of the whole retry loop: the parsed JSON and the number of
attempts actually performed, or exhaustion (the source returns `None`)
with the number of attempts performed. -/
inductive FetchRes where
  | success (d : Jval) (attempts : Nat)
  | failure (attempts : Nat)

/-- Attempts performed, in either case. -/
def FetchRes.attempts : FetchRes → Nat
  | .success _ a => a
  | .failure a => a

/-- The retry loop of `fetch_product_data` / `fetch_json_page`, unrolled from
attempt index `i` with `fuel` loop iterations remaining; `env` gives, for
each attempt index, what the three transport strategies would produce on
that attempt. -/
def fetchFromPDP (env : Nat → EnvPDP) : Nat → Nat → FetchRes
  | _, 0 => .failure 0
  | i, n + 1 =>
    match attemptStepPDP (env i) i with
    | .success d => .success d 1
    | .retry _ =>
      match fetchFromPDP env (i + 1) n with
      | .success d a => .success d (a + 1)
      | .failure a => .failure (a + 1)

/-- Function `fetch_product_data` (and `fetch_json_page`): run the retry loop for
`maxRetries` attempts starting at attempt 0. -/
def fetch_product_data (env : Nat → EnvPDP) (maxRetries : Nat) : FetchRes :=
  fetchFromPDP env 0 maxRetries

/-! ## HTML page fetcher (goatPDPAPI.fetch_product_page_html) and the result
mapper for its 200 branch (decode_body + extract_story_html +
extract_product_meta). -/

/-- The four `productTemplate` metadata fields; `Jval.null` stands for a
missing key (Python `pt.get(k)` returns `None` then) as well as a JSON
null value, exactly as in the source. -/
structure PageMeta where
  brandName : Jval
  color : Jval
  sku : Jval
  designer : Jval

/-- The decoded body of a product page as far as the extractors look at it.
`malformed` = BeautifulSoup / `json.loads` raised; `noNextData` = the
`__NEXT_DATA__` script tag is missing or empty; `page story meta` = the tag
parsed, where `story` is the collaborator-produced
`(cleaned_html, plain_text)` pair when `storyHtml` is present and truthy and
`none` otherwise, and `meta` holds the four `pt.get` results. -/
inductive Doc where
  | malformed
  | noNextData
  | page (story : Option (String × String)) (meta : PageMeta)

/-- Function `extract_story_html`: `(None, None)` on any parse failure or missing
story, otherwise the unescaped html and its plain text. -/
def extract_story_html : Doc → Option String × Option String
  | .malformed => (none, none)
  | .noNextData => (none, none)
  | .page story _ =>
    match story with
    | none => (none, none)
    | some (c, t) => (some c, some t)

/-- Function `extract_product_meta`: `none` models the empty dict `{}` returned on any
parse failure; on success the (always four-key, hence truthy) meta dict. -/
def extract_product_meta : Doc → Option PageMeta
  | .malformed => none
  | .noNextData => none
  | .page _ meta => some meta

/-- The dict `fetch_product_page_html` returns: the six GoatFacts fields plus
`http_status` and `error`. -/
structure HtmlRecord where
  story_html : Jval
  story_text : Jval
  brandName : Jval
  color : Jval
  sku : Jval
  designer : Jval
  http_status : Jval
  error : Jval

/-- The record `fetch_product_page_html` builds in its 200 branch (the result
mapper for a nominally successful fetch): extract story and meta from the
decoded body, defaulting every missing piece to an explicit empty string,
with status 200 and an empty error string. -/
def htmlSuccessRecord (d : Doc) : HtmlRecord :=
  let s := extract_story_html d
  let m := extract_product_meta d
  { story_html := .str (s.1.getD "")
    story_text := .str (s.2.getD "")
    brandName := match m with | none => .str "" | some mm => mm.brandName
    color := match m with | none => .str "" | some mm => mm.color
    sku := match m with | none => .str "" | some mm => mm.sku
    designer := match m with | none => .str "" | some mm => mm.designer
    http_status := .num 200
    error := .str "" }

/-- Python rendering of the `last_status` local inside the failure message
(`None` when no attempt ever got a response object). -/
def pyShowStatus : Option Nat → String
  | none => "None"
  | some s => toString s

/-- The all-attempts-failed record of `fetch_product_page_html`: empty
GoatFacts fields, `http_status` = the last observed status (`None` when
falsy, i.e. absent or 0) and a human-readable error string. -/
def htmlFailureRecord (maxr : Nat) (last : Option Nat) : HtmlRecord :=
  { story_html := .str ""
    story_text := .str ""
    brandName := .str ""
    color := .str ""
    sku := .str ""
    designer := .str ""
    http_status :=
      match last with
      | some s => if s ≠ 0 then .num s else .null
      | none => .null
    error := .str ("Failed after " ++ toString maxr ++
      " attempts (last_status=" ++ pyShowStatus last ++ ")") }

/-- A response as seen by the HTML fetcher: status code plus the decoded and
parsed body. -/
structure RespH where
  status : Nat
  doc : Doc

/-- Strategy outcomes for one HTML fetch attempt: `try_curl_cffi` then
`try_cloudscraper`; there is no plain-requests fallback in this fetcher
(the source raises `RuntimeError` when both produced nothing). -/
structure EnvHTML where
  curl : Option RespH
  cloud : Option RespH

/-- The transport chain of `fetch_product_page_html`: curl_cffi, then
cloudscraper; `error` models the `RuntimeError("No response")` raised when
both strategies produced nothing. -/
def chainHTML (e : EnvHTML) : Except Unit RespH :=
  match e.curl with
  | some r => .ok r
  | none =>
    match e.cloud with
    | some r => .ok r
    | none => .error ()

/-- Result of the HTML retry loop: the success record built in the 200
branch, or the failure record after exhaustion; both carry the number of
attempts performed. -/
inductive HtmlRes where
  | success (r : HtmlRecord) (attempts : Nat)
  | failure (r : HtmlRecord) (attempts : Nat)

/-- Attempts performed, in either case. -/
def HtmlRes.attempts : HtmlRes → Nat
  | .success _ a => a
  | .failure _ a => a

/-- The retry loop of `fetch_product_page_html`, from attempt index `i`,
carrying the `last_status` local (updated only on attempts where the chain
returned a response, before the 200 check). -/
def fetchHtmlFrom (maxr : Nat) (env : Nat → EnvHTML) :
    Nat → Option Nat → Nat → HtmlRes
  | _, last, 0 => .failure (htmlFailureRecord maxr last) 0
  | i, last, n + 1 =>
    match chainHTML (env i) with
    | .error _ =>
      match fetchHtmlFrom maxr env (i + 1) last n with
      | .success r a => .success r (a + 1)
      | .failure r a => .failure r (a + 1)
    | .ok r =>
      if r.status = 200 then .success (htmlSuccessRecord r.doc) 1
      else
        match fetchHtmlFrom maxr env (i + 1) (some r.status) n with
        | .success rec a => .success rec (a + 1)
        | .failure rec a => .failure rec (a + 1)

/-- Function `fetch_product_page_html`: run the HTML retry loop for `maxr` attempts
starting at attempt 0 with no status observed yet. -/
def fetch_product_page_html (env : Nat → EnvHTML) (maxr : Nat) : HtmlRes :=
  fetchHtmlFrom maxr env 0 none maxr

/-! ## Result mapping to CSV rows (goatPDPAPI.parse_variants_data,
goatPDPAPI.scrape_all_products) -/

/-- Test for the exact sentinel string used throughout `parse_variants_data`
(Python `x != "N/A"` against a value of any type is `False` only for that
exact string). -/
def Jval.isStrNA : Jval → Bool
  | .str s => s = "N/A"
  | _ => false

/-- Test for Python `None`. -/
def Jval.isNull : Jval → Bool
  | .null => true
  | _ => false

/-- Model of Python `float(x)` on an arbitrary value: numbers pass through,
bools coerce to 0 or 1, strings are parsed; anything else is a
`ValueError`/`TypeError` (`none`). -/
def toFloat : Jval → Option ℚ
  | .num q => some q
  | .bool b => some (if b then 1 else 0)
  | .str s => parseFloat s
  | _ => none

/-- The `us_size` computation of `parse_variants_data`: `"N/A"` unless the
size value is neither the `"N/A"` sentinel nor `None` and converts to a
float, in which case the rendering of that float minus 1. -/
def usSizeOf (size_value : Jval) : Jval :=
  if size_value.isStrNA || size_value.isNull then .str "N/A"
  else
    match toFloat size_value with
    | some q => .str (renderFloat (q - 1))
    | none => .str "N/A"

/-- One price block of `parse_variants_data`: the `"N/A"` sentinel passes
through, a numeric (or bool) amount in cents is divided by 100 and formatted
as dollars, and any other value is the `TypeError` raised by `x/100`
(`none`, which skips the whole variant row). -/
def priceUSD (amt : Jval) : Option Jval :=
  if amt.isStrNA then some (.str "N/A")
  else
    match amt with
    | .num q => some (.str ("$" ++ fmt2f (q / 100)))
    | .bool b => some (.str ("$" ++ fmt2f ((if b then (1 : ℚ) else 0) / 100)))
    | _ => none

/-- One input record of `goatPDPAPI`: the 22 fields `read_product_listings`
pulls out of `goat_listings.csv` (all strings, missing columns already
defaulted to `"N/A"` by the reader). -/
structure ProductInfo where
  product_name : String
  product_id : String
  slug : String
  product_url : String
  api_url : String
  brand : String
  silhouette : String
  category : String
  product_type : String
  gender : String
  status : String
  in_stock : String
  under_retail : String
  retail_price_usd : String
  retail_price_cents : String
  retail_price_currency : String
  picture_url : String
  season_year : String
  season_type : String
  activity : String
  release_date : String
  total_variants : String

/-- The size block of the per-variant loop: `sizeOption` with default `{}`,
then `presentation` and `value` with default `"N/A"`, returning
`(size_presentation, us_size, size_value)`; `none` when a `.get` receiver is
not a dict (the `AttributeError` the per-variant `except` catches). -/
def sizePart (variant : Jval) : Option (Jval × Jval × Jval) :=
  Option.bind (variant.getD "sizeOption" (.obj [])) (fun size_option =>
  Option.bind (size_option.getD "presentation" (.str "N/A")) (fun size_presentation =>
  Option.bind (size_option.getD "value" (.str "N/A")) (fun size_value =>
  some (size_presentation, usSizeOf size_value, size_value))))

/-- The condition block: `shoeCondition`, `boxCondition`, `stockStatus`
with default `"N/A"`. -/
def condPart (variant : Jval) : Option (Jval × Jval × Jval) :=
  Option.bind (variant.getD "shoeCondition" (.str "N/A")) (fun shoe_condition =>
  Option.bind (variant.getD "boxCondition" (.str "N/A")) (fun box_condition =>
  Option.bind (variant.getD "stockStatus" (.str "N/A")) (fun stock_status =>
  some (shoe_condition, box_condition, stock_status))))

/-- One price block (`lowestPriceCents` / `instantShipLowestPriceCents` /
`lastSoldPriceCents`): the sub-dict with default `{}`, its `amount` and
`currency` with default `"N/A"`, and the dollars rendering of the amount;
returns `(usd, amount, currency)`. -/
def pricePart (variant : Jval) (key : String) : Option (Jval × Jval × Jval) :=
  Option.bind (variant.getD key (.obj [])) (fun price_data =>
  Option.bind (price_data.getD "amount" (.str "N/A")) (fun amount_cents =>
  Option.bind (price_data.getD "currency" (.str "N/A")) (fun currency =>
  Option.bind (priceUSD amount_cents) (fun usd =>
  some (usd, amount_cents, currency)))))

/-- The body of the per-variant loop of `parse_variants_data`: build the
45-cell row for one variant, or `none` when the body raises (non-dict where
a dict is expected, or a non-numeric price amount), which the source catches
and turns into skipping the variant. -/
def buildVariantRow (variant : Jval) (info : ProductInfo) (html : HtmlRecord) :
    Option (List Jval) :=
  Option.bind (sizePart variant) (fun sz =>
  Option.bind (condPart variant) (fun cond =>
  Option.bind (pricePart variant "lowestPriceCents") (fun lp =>
  Option.bind (pricePart variant "instantShipLowestPriceCents") (fun ip =>
  Option.bind (pricePart variant "lastSoldPriceCents") (fun ls =>
  some [
    .str info.product_name, .str info.product_id, .str info.slug,
    .str info.product_url, .str info.api_url, .str info.brand,
    .str info.silhouette, .str info.category, .str info.product_type,
    .str info.gender, .str info.status, .str info.in_stock,
    .str info.under_retail, .str info.retail_price_usd,
    .str info.retail_price_cents, .str info.retail_price_currency,
    .str info.picture_url, .str info.season_year, .str info.season_type,
    .str info.activity, .str info.release_date, .str info.total_variants,
    sz.1, sz.2.1, sz.2.2,
    cond.1, cond.2.1, cond.2.2,
    lp.1, lp.2.1, lp.2.2,
    ip.1, ip.2.1, ip.2.2,
    ls.1, ls.2.1, ls.2.2,
    html.story_html, html.story_text, html.brandName, html.color,
    html.sku, html.designer, html.http_status, html.error]
  )))))

/-- Function `parse_variants_data`: no rows unless the payload is a
non-empty list, otherwise one row per variant whose row builder did not
raise. -/
def parse_variants_data (variants_data : Jval) (info : ProductInfo)
    (html : HtmlRecord) : List (List Jval) :=
  match variants_data with
  | .arr xs =>
    if xs.isEmpty then [] else xs.filterMap (fun v => buildVariantRow v info html)
  | _ => []

/-- The output CSV header written by `scrape_all_products` (45 columns). -/
def csvHeader : List Jval :=
  [.str "Product Name", .str "Product ID", .str "Slug", .str "Product URL",
   .str "API URL", .str "Brand", .str "Silhouette", .str "Category",
   .str "Product Type", .str "Gender", .str "Status", .str "In Stock",
   .str "Under Retail", .str "Retail Price (USD)", .str "Retail Price (Cents)",
   .str "Retail Price Currency", .str "Picture URL", .str "Season Year",
   .str "Season Type", .str "Activity", .str "Release Date",
   .str "Total Variants", .str "Size (Original)", .str "US Size (Size-1)",
   .str "Size Value (Numeric)", .str "Shoe Condition", .str "Box Condition",
   .str "Stock Status", .str "Lowest Price (USD)", .str "Lowest Price (Cents)",
   .str "Lowest Price Currency", .str "Instant Ship Price (USD)",
   .str "Instant Ship Price (Cents)", .str "Instant Ship Currency",
   .str "Last Sold Price (USD)", .str "Last Sold Price (Cents)",
   .str "Last Sold Currency", .str "story_html", .str "story_text",
   .str "brandName", .str "color", .str "sku", .str "designer",
   .str "http_status", .str "error"]

/-- What one product resolves to after `fetch_product_complete`: the API
payload (`none` when `fetch_product_data` exhausted its retries) and the
HTML-side record (always a full dict). -/
structure ProductFetch where
  api : Option Jval
  html : HtmlRecord

/-- The rows `scrape_all_products` appends for one product: nothing when the
API payload is missing or falsy (the `if api_data:` guard), otherwise the
parsed variant rows. -/
def productRows (env : ProductInfo → ProductFetch) (p : ProductInfo) :
    List (List Jval) :=
  match (env p).api with
  | some d => if d.truthy then parse_variants_data d p (env p).html else []
  | none => []

/-- All data rows appended by `scrape_all_products` across all batches,
in input order.  (The source batches products `BATCH_SIZE` at a time and
collects each batch with `as_completed`, which permutes rows inside one
batch; the model fixes input order, which is immaterial to the counting
and schema properties stated below.) -/
def scrapeDataRows (products : List ProductInfo)
    (env : ProductInfo → ProductFetch) : List (List Jval) :=
  products.flatMap (productRows env)

/-- Function `scrape_all_products` viewed as the full content of the output
CSV: the header row followed by every appended data row.  There is no other
write to the file. -/
def scrape_all_products (products : List ProductInfo)
    (env : ProductInfo → ProductFetch) : List (List Jval) :=
  csvHeader :: scrapeDataRows products env

/-- Claim-side helper for C9 (written from the claim, not the source): the
value literally bound under `sizeOption -> value` in the variant record,
`none` when either key is absent. -/
def specSizeValue (v : Jval) : Option Jval :=
  (v.getKey "sizeOption").bind (fun so => so.getKey "value")

/-! ## Image pipeline (upload_goat_images.py): dedup, resume, batches,
checkpoint maps -/

/-- One row of the input `goat_listings.csv` as `upload_goat_images` reads
it: only the `Product ID` and `Picture URL` columns are consulted. -/
structure InRow where
  pid : String
  url : String

/-- One row of a pre-existing output CSV used for resume: `Product ID`,
`drive_url`, `Image Width`, `Image Height` (missing cells are `""` after
`fillna`). -/
structure PrevRow where
  pid : String
  url : String
  w : String
  h : String

/-- Python `int(x)` truncation toward zero of a rational. -/
def truncQ (q : ℚ) : Int := q.num.tdiv (q.den : Int)

/-- Model of `int(float(s))` used when re-parsing stored image dimensions. -/
def parseDim (s : String) : Option Int := (parseFloat s).map truncQ

/-- Checkpoint state of `upload_goat_images`: `product_id_to_drive_url`
(value `none` = recorded failure, Python `None`) and
`product_id_to_dimensions`. -/
structure UpSt where
  urlMap : List (String × Option String)
  dimsMap : List (String × (Int × Int))
deriving DecidableEq

/-- Python dict assignment on an association list: replace in place if the
key is present, else append. -/
def aset {α : Type} : List (String × α) → String → α → List (String × α)
  | [], k, v => [(k, v)]
  | (k1, v1) :: rest, k, v =>
    if k1 = k then (k, v) :: rest else (k1, v1) :: aset rest k v

/-- The resume loop over a pre-existing output file: record a drive URL when
both the id and the URL are non-empty after stripping, and dimensions when
id, width and height are non-empty and both parse (the `except: pass`). -/
def resumeFromPrev (prev : List PrevRow) : UpSt :=
  prev.foldl (fun st row =>
    let pid := pyStrip row.pid
    let url := pyStrip row.url
    let st1 :=
      if pid ≠ "" ∧ url ≠ "" then
        { st with urlMap := aset st.urlMap pid (some url) }
      else st
    let w := pyStrip row.w
    let h := pyStrip row.h
    if pid ≠ "" ∧ w ≠ "" ∧ h ≠ "" then
      match parseDim w, parseDim h with
      | some wi, some hi => { st1 with dimsMap := aset st1.dimsMap pid (wi, hi) }
      | _, _ => st1
    else st1) ⟨[], []⟩

/-- What the remote side does for one product inside
`_process_one_product`: the download fails, the resize fails, or the image
is uploaded with the given upload result (`none` = all upload retries
failed) and resized dimensions. -/
inductive FetchOutcome where
  | downloadFail
  | resizeFail
  | uploaded (url : Option String) (w : Int) (h : Int)

/-- Python truthiness of an optional string (`if drive_url:`). -/
def truthyOpt : Option String → Bool
  | some u => u ≠ ""
  | none => false

/-- The skip test `pid in product_id_to_drive_url and
product_id_to_drive_url[pid]`. -/
def lookupTruthy (m : List (String × Option String)) (k : String) : Bool :=
  match m.lookup k with
  | some (some u) => u ≠ ""
  | _ => false

/-- What one worker hands back to the batch loop: its product id, the drive
URL (or `None`), the dimensions (or `None`), plus instrumentation recording
whether a download was actually attempted. -/
structure OneResult where
  pid : String
  url : Option String
  dims : Option (Int × Int)
  fetched : Bool

/-- Coroutine `_process_one_product` as a state transformer on the
checkpoint maps: skip when the id already has a truthy URL; otherwise
download / resize / upload, writing this product's entries of both maps
directly (exactly as the source does inside the worker). -/
def processOne (st : UpSt) (pid picUrl : String) (oc : FetchOutcome) :
    UpSt × OneResult :=
  if lookupTruthy st.urlMap pid then
    (st, ⟨pid, (st.urlMap.lookup pid).getD none, st.dimsMap.lookup pid, false⟩)
  else
    match oc with
    | .downloadFail => ({ st with urlMap := aset st.urlMap pid none },
        ⟨pid, none, none, true⟩)
    | .resizeFail => ({ st with urlMap := aset st.urlMap pid none },
        ⟨pid, none, none, true⟩)
    | .uploaded url w h =>
      let st1 := { st with urlMap := aset st.urlMap pid url }
      let dims := if truthyOpt url then some (w, h) else none
      let st2 :=
        match dims with
        | some d => { st1 with dimsMap := aset st1.dimsMap pid d }
        | none => st1
      (st2, ⟨pid, url, dims, true⟩)

/-- One scheduled item inside a batch of `process_all_in_batches`: skip at
scheduling time when the id already has a truthy URL, otherwise run the
worker and then fold its result back into both maps (the loop after
`asyncio.gather`).  The second component accumulates the ids for which a
download was attempted. -/
def runItem (oracle : String → FetchOutcome) (acc : UpSt × List String)
    (item : String × String) : UpSt × List String :=
  if lookupTruthy acc.1.urlMap item.1 then acc
  else
    let pr := processOne acc.1 item.1 item.2 (oracle item.1)
    let st2 := { pr.1 with urlMap := aset pr.1.urlMap pr.2.pid pr.2.url }
    let st3 :=
      match pr.2.dims with
      | some d => { st2 with dimsMap := aset st2.dimsMap pr.2.pid d }
      | none => st2
    (st3, if pr.2.fetched then acc.2 ++ [item.1] else acc.2)

/-- One batch: all of its items in order.  (The asyncio workers of a batch
run interleaved on one event-loop thread and each touches only its own
product id, so sequentialising them is behaviour-preserving.) -/
def runBatch (oracle : String → FetchOutcome) (init : UpSt × List String)
    (batch : List (String × String)) : UpSt × List String :=
  batch.foldl (runItem oracle) init

/-- The dedup loop at the top of `process_all_in_batches`.  A row enters the
work list when its stripped id is non-empty, its stripped picture URL is
non-empty and not `"N/A"`, and the id was not seen before; the seen set
grows only with admitted ids. -/
def productsToProcessGo : List InRow → List String → List (String × String)
  | [], _ => []
  | r :: rest, seen =>
    if (pyStrip r.pid != "" && pyStrip r.url != "" && pyStrip r.url != "N/A")
        && !(seen.contains (pyStrip r.pid)) then
      (pyStrip r.pid, pyStrip r.url) :: productsToProcessGo rest (pyStrip r.pid :: seen)
    else
      productsToProcessGo rest seen

/-- The deduplicated work list of `process_all_in_batches`. -/
def products_to_process (rows : List InRow) : List (String × String) :=
  productsToProcessGo rows []

/-- Function `_chunks`: split a list into consecutive slices of size `n`.
(The source would raise `ValueError` from `range(0, len, 0)` for `n = 0`;
that case returns `[]` here and is unreachable for the fixed batch size.) -/
def chunks {α : Type} : Nat → List α → List (List α)
  | _, [] => []
  | 0, _ :: _ => []
  | n + 1, x :: xs =>
    (x :: xs).take (n + 1) :: chunks (n + 1) ((x :: xs).drop (n + 1))
termination_by n l => l.length
decreasing_by simp; omega

/-- Function `process_all_in_batches`: seed the checkpoint maps from the
pre-existing output, dedup the input rows, then run every batch in order.
Returns the final checkpoint state and the ids that were actually
downloaded. -/
def process_all_in_batches (rows : List InRow) (prev : List PrevRow)
    (batchSize : Nat) (oracle : String → FetchOutcome) : UpSt × List String :=
  (chunks batchSize (products_to_process rows)).foldl (runBatch oracle)
    (resumeFromPrev prev, [])

/-- The `drive_url` cell written for a given input row id after a batch:
the mapped URL, or empty (pandas `NaN`) when the id is unmapped or mapped
to `None`. -/
def outUrlCell (st : UpSt) (pid : String) : String :=
  match st.urlMap.lookup pid with
  | some (some u) => u
  | _ => ""

/-- The `Image Width` / `Image Height` cells for a given id (`none` =
empty cell). -/
def outDimCells (st : UpSt) (pid : String) : Option Int × Option Int :=
  match st.dimsMap.lookup pid with
  | some (w, h) => (some w, some h)
  | none => (none, none)

/-- The final output file: every input row with its drive URL and dimension
cells (the source rewrites the whole dataframe after each batch; the final
write uses the final maps). -/
def outputRows (rows : List InRow) (st : UpSt) :
    List (String × String × Option Int × Option Int) :=
  rows.map (fun r => (r.pid, outUrlCell st r.pid, outDimCells st r.pid))

/-- First-occurrence dedup of a key list, parameterised by an initial seen
set. -/
def firstOccurFrom (seen : List String) : List String → List String
  | [] => []
  | k :: rest =>
    if seen.contains k then firstOccurFrom seen rest
    else k :: firstOccurFrom (k :: seen) rest

/-- Claim-side helper for C5 (written from the claim, not the source): the
distinct non-empty WorkKeys of the input, in first-occurrence order. -/
def specDistinctNonEmptyKeys (rows : List InRow) : List String :=
  firstOccurFrom [] ((rows.map (fun r => pyStrip r.pid)).filter (fun s => s != ""))

/-- The keys of the rows the dedup loop actually considers usable, in input
order (code-side companion for the amended C5). -/
def usableKeySeq (rows : List InRow) : List String :=
  (rows.filter (fun r =>
    pyStrip r.pid != "" && pyStrip r.url != "" && pyStrip r.url != "N/A")).map
    (fun r => pyStrip r.pid)

/-! ## Listings scraper (listingsAPI.scrape_all_pages) -/

/-- The two fixed search URLs of `listingsAPI`. -/
def SEARCH_URLS : List String :=
  ["https://www.goat.com/sneakers/brand/salomon?pageSlug=sneakers&brandName=salomon&pageNumber=1&inStock=true&genders=women",
   "https://www.goat.com/sneakers/brand/salomon?pageNumber=1&inStock=true&genders=men"]

/-- The guard of the page loop: the payload must be a dict with a dict
under `data` holding a non-empty list under `productsList` (any other
shape makes the loop break for this URL; the pathological shapes on which
the untyped source would instead raise are folded into the break). -/
def productsOf (d : Jval) : Option (List Jval) :=
  match d with
  | .obj fs =>
    match fs.lookup "data" with
    | some (.obj fs2) =>
      match fs2.lookup "productsList" with
      | some (.arr xs) => if xs.isEmpty then none else some xs
      | _ => none
    | _ => none
  | _ => none

/-- Python `int(data.get("pageLimit", 12))`: the top-level `pageLimit` when
numeric, else the default 12 (a non-numeric value would raise in the source;
none of the claims depends on that case). -/
def pageLimitOf (d : Jval) : Int :=
  match d.getKey "pageLimit" with
  | some (.num q) => truncQ q
  | _ => 12

/-- Hash/equality key of a Python value: `None`, numbers (with `True == 1`,
`False == 0`) and strings; `none` for unhashable containers, which can
never be stored in the written-ids set (storing one raises `TypeError`). -/
inductive PyKey where
  | knull
  | knum (q : ℚ)
  | kstr (s : String)
deriving DecidableEq

/-- The hashable key of a value, when it has one. -/
def pyKey : Jval → Option PyKey
  | .null => some .knull
  | .bool b => some (.knum (if b then 1 else 0))
  | .num q => some (.knum q)
  | .str s => some (.kstr s)
  | .arr _ => none
  | .obj _ => none

/-- Python `==` between values that may enter the written-ids set. -/
def Jval.pyEq (a b : Jval) : Bool :=
  match pyKey a, pyKey b with
  | some x, some y => x = y
  | _, _ => false

/-- Membership test of `product_id in written_product_ids`. -/
def containsId (written : List Jval) (v : Jval) : Bool :=
  written.any (fun w => w.pyEq v)

/-- Container test (unhashable in Python). -/
def Jval.isContainer : Jval → Bool
  | .arr _ => true
  | .obj _ => true
  | _ => false

/-- The value of `product.get("id")` (Python `None` when absent). -/
def csvIdOf (p : Jval) : Jval := (p.getKey "id").getD .null

/-- The per-page filter loop building `new_products`: drop products with a
falsy id, drop products whose id is already in the written set, keep the
rest; `none` models the `TypeError` the source raises when testing an
unhashable id against the set (which aborts the run before this page is
written). -/
def filterNewProducts (written : List Jval) : List Jval → Option (List Jval)
  | [] => some []
  | p :: rest =>
    let idv := csvIdOf p
    if !idv.truthy then filterNewProducts written rest
    else if idv.isContainer then none
    else if containsId written idv then filterNewProducts written rest
    else (filterNewProducts written rest).map (p :: ·)

/-- The update loop of the written-ids set after a page is written: every
product id of the page that is not `None`. -/
def idsToAdd (newps : List Jval) : List Jval :=
  newps.filterMap (fun p =>
    match p.getKey "id" with
    | some v => if v.isNull then none else some v
    | none => none)

/-- Result of scraping: the `new_products` batches appended to the CSV in
order, the final written-ids set, and whether the run aborted with the
unhashable-id `TypeError`. -/
structure UrlScrape where
  batches : List (List Jval)
  written : List Jval
  crashed : Bool

/-- The per-URL page loop of `scrape_all_pages`, with explicit fuel for
the unbounded `while True`: fetch a page, filter against the written set,
append the new products and their ids, stop on a short page; propagate the
crash flag. -/
def scrapeUrlFrom (oracle : String → Nat → Option Jval) (url : String) :
    Nat → List Jval → Nat → UrlScrape
  | _, written, 0 => ⟨[], written, false⟩
  | page, written, fuel + 1 =>
    match oracle url page with
    | none => ⟨[], written, false⟩
    | some d =>
      match productsOf d with
      | none => ⟨[], written, false⟩
      | some ps =>
        match filterNewProducts written ps with
        | none => ⟨[], written, true⟩
        | some newps =>
          if newps.isEmpty then ⟨[], written, false⟩
          else
            let written1 := written ++ idsToAdd newps
            if (ps.length : Int) < pageLimitOf d then ⟨[newps], written1, false⟩
            else
              let rest := scrapeUrlFrom oracle url (page + 1) written1 fuel
              ⟨newps :: rest.batches, rest.written, rest.crashed⟩

/-- Function `scrape_all_pages`: both search URLs in order, threading the
written-ids set; an uncaught exception in one URL aborts the rest. -/
def scrape_all_pages (oracle : String → Nat → Option Jval) (fuel : Nat) :
    UrlScrape :=
  SEARCH_URLS.foldl (fun acc url =>
    if acc.crashed then acc
    else
      let r := scrapeUrlFrom oracle url 1 acc.written fuel
      ⟨acc.batches ++ r.batches, r.written, r.crashed⟩) ⟨[], [], false⟩

/-- The `Product ID` cells of the rows written for one page batch
(`product.get("id", "N/A")` in `save_to_csv`). -/
def rowIds (b : List Jval) : List Jval :=
  b.map (fun p => (p.getKey "id").getD (.str "N/A"))

/-- All `Product ID` cells of the output CSV, in written order. -/
def allRowIds (r : UrlScrape) : List Jval := rowIds r.batches.flatten

/-! ## Concrete inputs used by counterexamples and witnesses -/

/-- A product record with two-variant-free fields filled in. -/
def exInfo : ProductInfo :=
  ⟨"name", "123", "slug", "purl", "aurl", "brand", "sil", "cat", "ptype",
   "gen", "status", "instock", "under", "rpu", "rpc", "rpcur", "pic", "sy",
   "st", "act", "rd", "tv"⟩

/-- A second product record. -/
def exInfo2 : ProductInfo :=
  ⟨"name2", "456", "slug2", "purl2", "aurl2", "brand", "sil", "cat", "ptype",
   "gen", "status", "instock", "under", "rpu", "rpc", "rpcur", "pic", "sy",
   "st", "act", "rd", "tv"⟩

/-- A successfully parsed product page. -/
def exHtmlOk : HtmlRecord :=
  htmlSuccessRecord (.page (some ("h", "t")) ⟨.str "b", .str "c", .str "s", .str "d"⟩)

/-- A realistic variant payload with a numeric size value 9.5. -/
def exVariant : Jval :=
  .obj [("sizeOption", .obj [("presentation", .str "9.5"),
           ("value", .num (19 / 2))]),
        ("shoeCondition", .str "new_no_defects"),
        ("boxCondition", .str "good_condition"),
        ("stockStatus", .str "single"),
        ("lowestPriceCents", .obj [("amount", .num 12345),
           ("currency", .str "USD")])]

/-- An environment in which every API fetch failed (and every HTML fetch
exhausted its attempts). -/
def exFailEnv : ProductInfo → ProductFetch :=
  fun _ => ⟨none, htmlFailureRecord 5 none⟩

/-- An environment in which every product resolves to one parsed variant. -/
def exGoodEnv : ProductInfo → ProductFetch :=
  fun _ => ⟨some (.arr [exVariant]), exHtmlOk⟩

/-- The row built for `exVariant`. -/
def exRowC9 : List Jval := (buildVariantRow exVariant exInfo exHtmlOk).getD []

/-- A transport environment in which every strategy fails on every
attempt. -/
def exEnvAllFail : Nat → EnvPDP := fun _ => ⟨none, none, .error ()⟩

/-- A transport environment that always returns HTTP 429 from curl_cffi. -/
def exEnv429 : EnvPDP := ⟨some ⟨429, none⟩, none, .error ()⟩

/-- An HTML transport environment in which both strategies fail. -/
def exEnvHFail : Nat → EnvHTML := fun _ => ⟨none, none⟩

/-- A listings oracle: every URL serves, on page 1 only, a page holding the
same product twice (a within-page duplicate). -/
def exListOracle : String → Nat → Option Jval :=
  fun _ page =>
    if page = 1 then
      some (.obj [("data", .obj [("productsList",
        .arr [.obj [("id", .str "x")], .obj [("id", .str "x")]])])])
    else none

/-! ## Helper lemmas about the two retry loops -/

theorem fetchFromPDP_attempts_le (env : Nat → EnvPDP) :
    ∀ n i, (fetchFromPDP env i n).attempts ≤ n := by
  intro n
  induction n with
  | zero => intro i; simp [fetchFromPDP, FetchRes.attempts]
  | succ n ih =>
    intro i
    simp only [fetchFromPDP]
    cases attemptStepPDP (env i) i with
    | success d => simp [FetchRes.attempts]
    | retry w =>
      have ha := ih (i + 1)
      cases h : fetchFromPDP env (i + 1) n with
      | success d a =>
        rw [h] at ha
        simp [FetchRes.attempts] at ha ⊢
        omega
      | failure a =>
        rw [h] at ha
        simp [FetchRes.attempts] at ha ⊢
        omega

theorem fetchFromPDP_failure_eq (env : Nat → EnvPDP) :
    ∀ n i a, fetchFromPDP env i n = .failure a → a = n := by
  intro n
  induction n with
  | zero =>
    intro i a h
    simp only [fetchFromPDP] at h
    cases h
    rfl
  | succ n ih =>
    intro i a h
    simp only [fetchFromPDP] at h
    cases hs : attemptStepPDP (env i) i with
    | success d => rw [hs] at h; cases h
    | retry w =>
      rw [hs] at h
      cases hr : fetchFromPDP env (i + 1) n with
      | success d b => rw [hr] at h; cases h
      | failure b =>
        rw [hr] at h
        cases h
        have := ih (i + 1) b hr
        omega

theorem fetchFromPDP_attempts_pos (env : Nat → EnvPDP) :
    ∀ n i, 1 ≤ n → 1 ≤ (fetchFromPDP env i n).attempts := by
  intro n i hn
  cases n with
  | zero => omega
  | succ n =>
    simp only [fetchFromPDP]
    cases attemptStepPDP (env i) i with
    | success d => simp [FetchRes.attempts]
    | retry w =>
      cases fetchFromPDP env (i + 1) n with
      | success d a => simp [FetchRes.attempts]
      | failure a => simp [FetchRes.attempts]

theorem fetchFromPDP_retry_succ (env : Nat → EnvPDP) (i n w : Nat)
    (h : attemptStepPDP (env i) i = .retry w) :
    (fetchFromPDP env i (n + 1)).attempts =
      (fetchFromPDP env (i + 1) n).attempts + 1 := by
  simp only [fetchFromPDP, h]
  cases fetchFromPDP env (i + 1) n with
  | success d a => simp [FetchRes.attempts]
  | failure a => simp [FetchRes.attempts]

theorem fetchFromPDP_congr (env env' : Nat → EnvPDP) :
    ∀ n i, (∀ j, i ≤ j → env j = env' j) →
      fetchFromPDP env i n = fetchFromPDP env' i n := by
  intro n
  induction n with
  | zero => intro i _; rfl
  | succ n ih =>
    intro i h
    have hi : env i = env' i := h i le_rfl
    have hrec := ih (i + 1) (fun j hj => h j (by omega))
    simp only [fetchFromPDP, hi, hrec]

theorem fetchHtmlFrom_congr (maxr : Nat) (env env' : Nat → EnvHTML) :
    ∀ n i last, (∀ j, i ≤ j → env j = env' j) →
      fetchHtmlFrom maxr env i last n = fetchHtmlFrom maxr env' i last n := by
  intro n
  induction n with
  | zero => intro i last _; rfl
  | succ n ih =>
    intro i last h
    have hi : env i = env' i := h i le_rfl
    have hrec : ∀ l, fetchHtmlFrom maxr env (i + 1) l n =
        fetchHtmlFrom maxr env' (i + 1) l n :=
      fun l => ih (i + 1) l (fun j hj => h j (by omega))
    simp only [fetchHtmlFrom, hi, hrec]

theorem fetchHtmlFrom_attempts_le (maxr : Nat) (env : Nat → EnvHTML) :
    ∀ n i last, (fetchHtmlFrom maxr env i last n).attempts ≤ n := by
  intro n
  induction n with
  | zero => intro i last; simp [fetchHtmlFrom, HtmlRes.attempts]
  | succ n ih =>
    intro i last
    simp only [fetchHtmlFrom]
    cases chainHTML (env i) with
    | error e =>
      have ha := ih (i + 1) last
      cases h : fetchHtmlFrom maxr env (i + 1) last n with
      | success r a =>
        rw [h] at ha
        simp [HtmlRes.attempts] at ha ⊢
        omega
      | failure r a =>
        rw [h] at ha
        simp [HtmlRes.attempts] at ha ⊢
        omega
    | ok r =>
      by_cases h200 : r.status = 200
      · simp [h200, HtmlRes.attempts]
      · simp only [if_neg h200]
        have ha := ih (i + 1) (some r.status)
        cases h : fetchHtmlFrom maxr env (i + 1) (some r.status) n with
        | success rc a =>
          rw [h] at ha
          simp [HtmlRes.attempts] at ha ⊢
          omega
        | failure rc a =>
          rw [h] at ha
          simp [HtmlRes.attempts] at ha ⊢
          omega

theorem fetchHtmlFrom_failure_eq (maxr : Nat) (env : Nat → EnvHTML) :
    ∀ n i last r a, fetchHtmlFrom maxr env i last n = .failure r a → a = n := by
  intro n
  induction n with
  | zero =>
    intro i last r a h
    simp only [fetchHtmlFrom] at h
    cases h
    rfl
  | succ n ih =>
    intro i last r a h
    simp only [fetchHtmlFrom] at h
    cases hc : chainHTML (env i) with
    | error e =>
      simp only [hc] at h
      cases hr : fetchHtmlFrom maxr env (i + 1) last n with
      | success rc b => simp only [hr] at h; cases h
      | failure rc b =>
        simp only [hr] at h
        injection h with h1 h2
        have := ih (i + 1) last rc b hr
        omega
    | ok rr =>
      simp only [hc] at h
      by_cases h200 : rr.status = 200
      · rw [if_pos h200] at h; cases h
      · rw [if_neg h200] at h
        cases hr : fetchHtmlFrom maxr env (i + 1) (some rr.status) n with
        | success rc b => simp only [hr] at h; cases h
        | failure rc b =>
          simp only [hr] at h
          injection h with h1 h2
          have := ih (i + 1) (some rr.status) rc b hr
          omega

/-! ## Claim theorems: retry controller (C2, C3, C4) -/

/-- C2: for every work item a single logical fetch (`fetch_product_data` as
well as `fetch_product_page_html`) performs at most `maxAttempts` attempts,
and returns the retries-exhausted failure outcome only after exactly
`maxAttempts` attempts. -/
theorem retry_bound (env : Nat → EnvPDP) (envH : Nat → EnvHTML) (m : Nat) :
    (fetch_product_data env m).attempts ≤ m ∧
    (∀ a, fetch_product_data env m = .failure a → a = m) ∧
    (fetch_product_page_html envH m).attempts ≤ m ∧
    (∀ r a, fetch_product_page_html envH m = .failure r a → a = m) :=
  ⟨fetchFromPDP_attempts_le env m 0,
   fun a h => fetchFromPDP_failure_eq env m 0 a h,
   fetchHtmlFrom_attempts_le m envH m 0 none,
   fun r a h => fetchHtmlFrom_failure_eq m envH m 0 none r a h⟩

/-- Witness for `retry_bound` at a concrete always-failing transport
environment, all hypotheses discharged by evaluation. -/
theorem retry_bound_witness :
    (fetch_product_data exEnvAllFail 3).attempts ≤ 3 ∧ (3 : Nat) = 3 ∧
    (fetch_product_page_html exEnvHFail 3).attempts ≤ 3 ∧ (3 : Nat) = 3 :=
  ⟨(retry_bound exEnvAllFail exEnvHFail 3).1,
   (retry_bound exEnvAllFail exEnvHFail 3).2.1 3 rfl,
   (retry_bound exEnvAllFail exEnvHFail 3).2.2.1,
   (retry_bound exEnvAllFail exEnvHFail 3).2.2.2 (htmlFailureRecord 3 none) 3 rfl⟩

/-- C3: a failed attempt `i` sleeps `baseDelay + i` seconds (transport
exception, non-200 status, or JSON-decode failure on a 200), except that
HTTP 429 sleeps the strictly longer `rateLimitBaseDelay + i`; and a 429 is
retried, not terminal, whenever attempts remain. -/
theorem backoff_schedule (e : EnvPDP) (i : Nat) :
    (chainPDP e = .error () → attemptStepPDP e i = .retry (baseDelay + i)) ∧
    (∀ r, chainPDP e = .ok r → r.status = 429 →
      attemptStepPDP e i = .retry (rateLimitBaseDelay + i)) ∧
    (∀ r, chainPDP e = .ok r → r.status ≠ 429 → r.status ≠ 200 →
      attemptStepPDP e i = .retry (baseDelay + i)) ∧
    (∀ r, chainPDP e = .ok r → r.status = 200 → r.json = none →
      attemptStepPDP e i = .retry (baseDelay + i)) ∧
    baseDelay + i < rateLimitBaseDelay + i ∧
    (∀ (env : Nat → EnvPDP) (n w : Nat), env i = e →
      attemptStepPDP e i = .retry w → 1 ≤ n →
      2 ≤ (fetchFromPDP env i (n + 1)).attempts) := by
  refine ⟨?_, ?_, ?_, ?_, ?_, ?_⟩
  · intro h
    simp [attemptStepPDP, h]
  · intro r h h429
    simp [attemptStepPDP, h, h429]
  · intro r h h429 h200
    simp [attemptStepPDP, h, h429, h200]
  · intro r h h200 hjson
    simp [attemptStepPDP, h, h200, hjson]
  · simp [baseDelay, rateLimitBaseDelay]
  · intro env n w henv hstep hn
    have hstep2 : attemptStepPDP (env i) i = .retry w := by rw [henv]; exact hstep
    rw [fetchFromPDP_retry_succ env i n w hstep2]
    have := fetchFromPDP_attempts_pos env n (i + 1) hn
    omega

/-- Witness for `backoff_schedule` at a concrete 429 response: the 429 wait
is `rateLimitBaseDelay + 0` and the run goes on to a second attempt. -/
theorem backoff_schedule_witness :
    attemptStepPDP exEnv429 0 = .retry (rateLimitBaseDelay + 0) ∧
    baseDelay + 0 < rateLimitBaseDelay + 0 ∧
    2 ≤ (fetchFromPDP (fun _ => exEnv429) 0 2).attempts :=
  ⟨(backoff_schedule exEnv429 0).2.1 ⟨429, none⟩ rfl rfl,
   (backoff_schedule exEnv429 0).2.2.2.2.1,
   (backoff_schedule exEnv429 0).2.2.2.2.2 (fun _ => exEnv429) 1
     (rateLimitBaseDelay + 0) rfl
     ((backoff_schedule exEnv429 0).2.1 ⟨429, none⟩ rfl rfl) (le_refl 1)⟩

/-- C4: on every attempt the transport chain tries its strategies strictly
in declared order — curl_cffi, then cloudscraper, then (for the JSON
fetchers) plain requests — moving on exactly when the current strategy
produced nothing; and the retry loops are stateless across attempts: the
behaviour from attempt `i` on depends only on what the strategies do from
attempt `i` on, never on which strategy succeeded earlier. -/
theorem transport_chain_order_stateless :
    (∀ (e : EnvPDP) (r : RespJ), e.curl = some r → chainPDP e = .ok r) ∧
    (∀ (e : EnvPDP) (r : RespJ), e.curl = none → e.cloud = some r →
      chainPDP e = .ok r) ∧
    (∀ e : EnvPDP, e.curl = none → e.cloud = none → chainPDP e = e.req) ∧
    (∀ (e : EnvHTML) (r : RespH), e.curl = some r → chainHTML e = .ok r) ∧
    (∀ (e : EnvHTML) (r : RespH), e.curl = none → e.cloud = some r →
      chainHTML e = .ok r) ∧
    (∀ e : EnvHTML, e.curl = none → e.cloud = none → chainHTML e = .error ()) ∧
    (∀ (env env' : Nat → EnvPDP) (i n : Nat), (∀ j, i ≤ j → env j = env' j) →
      fetchFromPDP env i n = fetchFromPDP env' i n) ∧
    (∀ (maxr : Nat) (env env' : Nat → EnvHTML) (i n : Nat) (last : Option Nat),
      (∀ j, i ≤ j → env j = env' j) →
      fetchHtmlFrom maxr env i last n = fetchHtmlFrom maxr env' i last n) := by
  refine ⟨?_, ?_, ?_, ?_, ?_, ?_, ?_, ?_⟩
  · intro e r h; simp [chainPDP, h]
  · intro e r h1 h2; simp [chainPDP, h1, h2]
  · intro e h1 h2; simp [chainPDP, h1, h2]
  · intro e r h; simp [chainHTML, h]
  · intro e r h1 h2; simp [chainHTML, h1, h2]
  · intro e h1 h2; simp [chainHTML, h1, h2]
  · intro env env' i n h; exact fetchFromPDP_congr env env' n i h
  · intro maxr env env' i n last h; exact fetchHtmlFrom_congr maxr env env' n i last h

/-- Witness for `transport_chain_order_stateless` at concrete environments:
a curl response wins, cloudscraper wins when curl produced nothing, requests
is last, and perturbing the strategies of past attempts does not change the
remaining run. -/
theorem transport_chain_order_stateless_witness :
    chainPDP ⟨some ⟨200, none⟩, none, .error ()⟩ = .ok ⟨200, none⟩ ∧
    chainPDP ⟨none, some ⟨200, none⟩, .error ()⟩ = .ok ⟨200, none⟩ ∧
    chainPDP ⟨none, none, .ok ⟨200, none⟩⟩ = .ok ⟨200, none⟩ ∧
    chainHTML ⟨none, none⟩ = .error () ∧
    fetchFromPDP exEnvAllFail 1 2 =
      fetchFromPDP (fun j => if j = 0 then ⟨some ⟨200, some .null⟩, none, .error ()⟩
        else exEnvAllFail j) 1 2 :=
  ⟨transport_chain_order_stateless.1 _ ⟨200, none⟩ rfl,
   transport_chain_order_stateless.2.1 _ ⟨200, none⟩ rfl rfl,
   transport_chain_order_stateless.2.2.1 _ rfl rfl,
   transport_chain_order_stateless.2.2.2.2.2.1 _ rfl rfl,
   transport_chain_order_stateless.2.2.2.2.2.2.1 _ _ 1 2
     (fun j hj => by
       have : j ≠ 0 := by omega
       simp [this])⟩

/-! ## Claim theorem: result mapper degradation (C7) -/

/-- C7: the 200-branch result mapper never raises — in particular, when the
body of a nominally successful fetch cannot be parsed (malformed document or
missing `__NEXT_DATA__`), it returns a record with every domain field set to
the explicit empty string and the error field a (here empty) string, instead
of propagating the parse exception. -/
theorem mapper_parse_failure_degrades (d : Doc)
    (h : d = .malformed ∨ d = .noNextData) :
    htmlSuccessRecord d =
      { story_html := .str "", story_text := .str "", brandName := .str "",
        color := .str "", sku := .str "", designer := .str "",
        http_status := .num 200, error := .str "" } := by
  rcases h with h | h <;> subst h <;> rfl

/-- Witness for `mapper_parse_failure_degrades` at the malformed document. -/
theorem mapper_parse_failure_degrades_witness :
    htmlSuccessRecord .malformed =
      { story_html := .str "", story_text := .str "", brandName := .str "",
        color := .str "", sku := .str "", designer := .str "",
        http_status := .num 200, error := .str "" } :=
  mapper_parse_failure_degrades .malformed (Or.inl rfl)

/-! ## Claim theorems: variant rows (C9) and output shape (C1) -/

theorem usSizeOf_matches (j : Jval) :
    (∀ q, toFloat j = some q → usSizeOf j = .str (renderFloat (q - 1))) ∧
    (toFloat j = none → usSizeOf j = .str "N/A") := by
  cases j with
  | null => exact ⟨fun q hq => by simp [toFloat] at hq, fun _ => rfl⟩
  | bool b =>
    refine ⟨fun q hq => ?_, fun hq => by simp [toFloat] at hq⟩
    simp only [toFloat, Option.some.injEq] at hq
    simp [usSizeOf, Jval.isStrNA, Jval.isNull, toFloat, hq]
  | num q0 =>
    refine ⟨fun q hq => ?_, fun hq => by simp [toFloat] at hq⟩
    simp only [toFloat, Option.some.injEq] at hq
    simp [usSizeOf, Jval.isStrNA, Jval.isNull, toFloat, hq]
  | str s =>
    by_cases hs : s = "N/A"
    · subst hs
      have hpf : parseFloat "N/A" = none := by decide
      refine ⟨fun q hq => ?_, fun _ => ?_⟩
      · simp [toFloat, hpf] at hq
      · simp [usSizeOf, Jval.isStrNA]
    · refine ⟨fun q hq => ?_, fun hq => ?_⟩
      · simp only [toFloat] at hq
        simp [usSizeOf, Jval.isStrNA, Jval.isNull, hs, toFloat, hq]
      · simp only [toFloat] at hq
        simp [usSizeOf, Jval.isStrNA, Jval.isNull, hs, toFloat, hq]
  | arr xs => exact ⟨fun q hq => by simp [toFloat] at hq, fun _ => rfl⟩
  | obj fs => exact ⟨fun q hq => by simp [toFloat] at hq, fun _ => rfl⟩

theorem sizePart_eq (v : Jval) (sz : Jval × Jval × Jval)
    (h : sizePart v = some sz) :
    ∃ so sval, v.getD "sizeOption" (.obj []) = some so ∧
      so.getD "value" (.str "N/A") = some sval ∧
      sz.2.1 = usSizeOf sval ∧ sz.2.2 = sval := by
  simp only [sizePart, Option.bind_eq_some, Option.some.injEq] at h
  obtain ⟨so, hso, pres, hpres, sval, hsval, heq⟩ := h
  exact ⟨so, sval, hso, hsval, by rw [← heq], by rw [← heq]⟩

theorem buildVariantRow_eq (v : Jval) (info : ProductInfo) (html : HtmlRecord)
    (row : List Jval) (h : buildVariantRow v info html = some row) :
    ∃ sz cond lp ip ls, sizePart v = some sz ∧ condPart v = some cond ∧
      pricePart v "lowestPriceCents" = some lp ∧
      pricePart v "instantShipLowestPriceCents" = some ip ∧
      pricePart v "lastSoldPriceCents" = some ls ∧
      row = [
        .str info.product_name, .str info.product_id, .str info.slug,
        .str info.product_url, .str info.api_url, .str info.brand,
        .str info.silhouette, .str info.category, .str info.product_type,
        .str info.gender, .str info.status, .str info.in_stock,
        .str info.under_retail, .str info.retail_price_usd,
        .str info.retail_price_cents, .str info.retail_price_currency,
        .str info.picture_url, .str info.season_year, .str info.season_type,
        .str info.activity, .str info.release_date, .str info.total_variants,
        sz.1, sz.2.1, sz.2.2,
        cond.1, cond.2.1, cond.2.2,
        lp.1, lp.2.1, lp.2.2,
        ip.1, ip.2.1, ip.2.2,
        ls.1, ls.2.1, ls.2.2,
        html.story_html, html.story_text, html.brandName, html.color,
        html.sku, html.designer, html.http_status, html.error] := by
  simp only [buildVariantRow, Option.bind_eq_some, Option.some.injEq] at h
  obtain ⟨sz, hsz, cond, hcond, lp, hlp, ip, hip, ls, hls, heq⟩ := h
  exact ⟨sz, cond, lp, ip, ls, hsz, hcond, hlp, hip, hls, heq.symm⟩

/-- C9: whenever a variant row is produced, its US-Size cell (index 23) is
the decimal rendering of the variant record's `sizeOption.value` minus 1
when that value is present and converts to a float, and the `"N/A"` sentinel
otherwise (value absent, or present but not convertible). -/
theorem us_size_field_correct (v : Jval) (info : ProductInfo)
    (html : HtmlRecord) (row : List Jval)
    (h : buildVariantRow v info html = some row) :
    (∀ j q, specSizeValue v = some j → toFloat j = some q →
      row[23]? = some (.str (renderFloat (q - 1)))) ∧
    (specSizeValue v = none → row[23]? = some (.str "N/A")) ∧
    (∀ j, specSizeValue v = some j → toFloat j = none →
      row[23]? = some (.str "N/A")) := by
  obtain ⟨sz, cond, lp, ip, ls, hsz, hcond, hlp, hip, hls, hrow⟩ :=
    buildVariantRow_eq v info html row h
  obtain ⟨so, sval, hso, hsval, hsz21, hsz22⟩ := sizePart_eq v sz hsz
  have hidx : row[23]? = some sz.2.1 := by rw [hrow]; rfl
  rw [hsz21] at hidx
  -- relate the code-side lookups to the claim-side specSizeValue
  cases v with
  | obj fs =>
    simp only [Jval.getD, Option.some.injEq] at hso
    cases hfl : fs.lookup "sizeOption" with
    | none =>
      have hspec : specSizeValue (.obj fs) = none := by
        simp [specSizeValue, Jval.getKey, hfl]
      have hsv : sval = .str "N/A" := by
        rw [hfl] at hso
        simp only [Option.getD] at hso
        rw [← hso] at hsval
        simp only [Jval.getD, List.lookup, Option.some.injEq] at hsval
        exact hsval.symm
      refine ⟨fun j q hj _ => ?_, fun _ => ?_, fun j hj _ => ?_⟩
      · rw [hspec] at hj; cases hj
      · rw [hidx, hsv]; rfl
      · rw [hspec] at hj; cases hj
    | some w =>
      rw [hfl] at hso
      simp only [Option.getD] at hso
      rw [← hso] at hsval
      cases w with
      | obj gs =>
        simp only [Jval.getD, Option.some.injEq] at hsval
        have hspec : specSizeValue (.obj fs) = gs.lookup "value" := by
          simp [specSizeValue, Jval.getKey, hfl]
        cases hvl : gs.lookup "value" with
        | none =>
          have hsv : sval = .str "N/A" := by rw [hvl] at hsval; exact hsval.symm
          refine ⟨fun j q hj _ => ?_, fun _ => ?_, fun j hj _ => ?_⟩
          · rw [hspec, hvl] at hj; cases hj
          · rw [hidx, hsv]; rfl
          · rw [hspec, hvl] at hj; cases hj
        | some j0 =>
          have hsv : sval = j0 := by rw [hvl] at hsval; exact hsval.symm
          refine ⟨fun j q hj hq => ?_, fun hn => ?_, fun j hj hq => ?_⟩
          · rw [hspec, hvl, Option.some.injEq] at hj
            subst hj
            rw [hidx, hsv]
            exact congrArg some ((usSizeOf_matches j0).1 q hq)
          · rw [hspec, hvl] at hn; cases hn
          · rw [hspec, hvl, Option.some.injEq] at hj
            subst hj
            rw [hidx, hsv]
            exact congrArg some ((usSizeOf_matches j0).2 hq)
      | null => simp [Jval.getD] at hsval
      | bool b => simp [Jval.getD] at hsval
      | num q0 => simp [Jval.getD] at hsval
      | str s0 => simp [Jval.getD] at hsval
      | arr xs => simp [Jval.getD] at hsval
  | null => simp [Jval.getD] at hso
  | bool b => simp [Jval.getD] at hso
  | num q0 => simp [Jval.getD] at hso
  | str s0 => simp [Jval.getD] at hso
  | arr xs => simp [Jval.getD] at hso

/-- Witness for `us_size_field_correct` at the concrete variant with size
value 9.5: the US-Size cell is the rendering of 8.5. -/
theorem us_size_field_correct_witness :
    buildVariantRow exVariant exInfo exHtmlOk = some exRowC9 ∧
    exRowC9[23]? = some (.str (renderFloat ((19 : ℚ) / 2 - 1))) :=
  ⟨rfl,
   (us_size_field_correct exVariant exInfo exHtmlOk exRowC9 rfl).1
     (.num (19 / 2)) (19 / 2) rfl rfl⟩

theorem buildVariantRow_length (v : Jval) (info : ProductInfo)
    (html : HtmlRecord) (row : List Jval)
    (h : buildVariantRow v info html = some row) : row.length = 45 := by
  obtain ⟨sz, cond, lp, ip, ls, _, _, _, _, _, hrow⟩ :=
    buildVariantRow_eq v info html row h
  subst hrow
  rfl

theorem parse_variants_row_len (vd : Jval) (info : ProductInfo)
    (html : HtmlRecord) :
    ∀ row ∈ parse_variants_data vd info html, row.length = 45 := by
  intro row hr
  cases vd with
  | arr xs =>
    simp only [parse_variants_data] at hr
    by_cases he : xs.isEmpty
    · rw [if_pos he] at hr; cases hr
    · rw [if_neg he] at hr
      obtain ⟨v, _, hv⟩ := List.mem_filterMap.mp hr
      exact buildVariantRow_length v info html row hv
  | null => cases hr
  | bool b => cases hr
  | num q => cases hr
  | str s => cases hr
  | obj fs => cases hr

/-- Refutation of C1 as stated: two input products whose API fetches never
resolved produce an output of one header row and zero data rows — no final
sweep writes failure placeholders, and the row count does not match the
input count under either way of counting the header. -/
theorem scrape_row_count_counterexample :
    (scrape_all_products [exInfo, exInfo2] exFailEnv).length ≠
      ([exInfo, exInfo2] : List ProductInfo).length ∧
    (scrapeDataRows [exInfo, exInfo2] exFailEnv).length ≠
      ([exInfo, exInfo2] : List ProductInfo).length := by
  constructor <;> decide

/-- C1 (amended): the output of `scrape_all_products` is one header row
plus, for each input product whose API fetch resolved to a truthy payload,
one row per successfully parsed variant; failed fetches contribute no rows
(there is no final sweep), so the output row count is 1 + the total parsed
variant count rather than the input row count; and every row written — the
header and every data row — has exactly the 45 columns of the schema. -/
theorem scrape_output_row_structure (products : List ProductInfo)
    (env : ProductInfo → ProductFetch) :
    (scrape_all_products products env).length =
      1 + (products.map (fun p => (productRows env p).length)).sum ∧
    ∀ row ∈ scrape_all_products products env, row.length = csvHeader.length := by
  constructor
  · simp only [scrape_all_products, scrapeDataRows, List.length_cons,
      List.length_flatMap, Function.comp_def]
    omega
  · intro row hrow
    rcases List.mem_cons.mp hrow with h | h
    · subst h; rfl
    · simp only [scrapeDataRows, List.mem_flatMap] at h
      obtain ⟨p, _, hp⟩ := h
      have h45 : row.length = 45 := by
        simp only [productRows] at hp
        cases hapi : (env p).api with
        | none => simp [hapi] at hp
        | some d =>
          simp only [hapi] at hp
          by_cases ht : d.truthy
          · rw [if_pos ht] at hp
            exact parse_variants_row_len d p (env p).html row hp
          · rw [if_neg ht] at hp; cases hp
      rw [h45]
      rfl

/-- Witness for `scrape_output_row_structure` at a one-product input whose
fetch resolved to one variant: output length 2 and the one data row is
schema-complete. -/
theorem scrape_output_row_structure_witness :
    (scrape_all_products [exInfo] exGoodEnv).length =
      1 + (([exInfo] : List ProductInfo).map
        (fun p => (productRows exGoodEnv p).length)).sum ∧
    exRowC9.length = csvHeader.length :=
  ⟨(scrape_output_row_structure [exInfo] exGoodEnv).1,
   (scrape_output_row_structure [exInfo] exGoodEnv).2 exRowC9 (by
     show exRowC9 ∈ csvHeader :: scrapeDataRows [exInfo] exGoodEnv
     have : scrapeDataRows [exInfo] exGoodEnv = [exRowC9] := rfl
     rw [this]
     exact List.mem_cons_of_mem _ (List.mem_singleton.mpr rfl))⟩

/-! ## Claim theorems: deduplication (C5) -/

theorem productsToProcessGo_keys (rows : List InRow) :
    ∀ seen, (productsToProcessGo rows seen).map Prod.fst =
      firstOccurFrom seen (usableKeySeq rows) := by
  induction rows with
  | nil => intro seen; rfl
  | cons r rest ih =>
    intro seen
    by_cases hu : (pyStrip r.pid != "" && pyStrip r.url != ""
        && pyStrip r.url != "N/A") = true
    · by_cases hc : pyStrip r.pid ∈ seen
      · simpa [productsToProcessGo, usableKeySeq, hu, hc, firstOccurFrom]
          using ih seen
      · simpa [productsToProcessGo, usableKeySeq, hu, hc, firstOccurFrom]
          using ih (pyStrip r.pid :: seen)
    · simpa [productsToProcessGo, usableKeySeq, hu, firstOccurFrom]
        using ih seen

theorem firstOccurFrom_not_seen (l : List String) :
    ∀ (seen : List String) (x : String),
      x ∈ firstOccurFrom seen l → seen.contains x = false := by
  induction l with
  | nil => intro seen x hx; cases hx
  | cons k rest ih =>
    intro seen x hx
    by_cases hc : seen.contains k = true
    · rw [firstOccurFrom, if_pos hc] at hx
      exact ih seen x hx
    · rw [firstOccurFrom, if_neg hc] at hx
      rcases List.mem_cons.mp hx with h | h
      · subst h
        simpa using hc
      · have h2 := ih (k :: seen) x h
        simp only [List.contains_cons, Bool.or_eq_false_iff] at h2
        exact h2.2

theorem firstOccurFrom_nodup (l : List String) :
    ∀ seen, (firstOccurFrom seen l).Nodup := by
  induction l with
  | nil => intro seen; simp [firstOccurFrom]
  | cons k rest ih =>
    intro seen
    by_cases hc : seen.contains k = true
    · rw [firstOccurFrom, if_pos hc]; exact ih seen
    · rw [firstOccurFrom, if_neg hc]
      refine List.nodup_cons.mpr ⟨fun hk => ?_, ih (k :: seen)⟩
      have := firstOccurFrom_not_seen rest (k :: seen) k hk
      simp at this

/-- Refutation of C5 as stated: an input whose single row has the non-empty
key `"A"` but picture URL `"N/A"` schedules zero work items, while it has
one distinct non-empty WorkKey — the scheduled count is not the distinct
non-empty key count. -/
theorem dedup_count_counterexample :
    (products_to_process [⟨"A", "N/A"⟩]).length ≠
      (specDistinctNonEmptyKeys [⟨"A", "N/A"⟩]).length := by
  decide

/-- C5 (amended): the deduplicator passes to the scheduler exactly one work
item per distinct key among rows with a non-empty stripped Product ID and a
usable picture URL (non-empty and not `"N/A"`); rows whose key is non-empty
but whose picture URL is unusable are not scheduled, and the items appear in
the order of each key's first usable occurrence. -/
theorem dedup_first_usable_occurrence (rows : List InRow) :
    (products_to_process rows).map Prod.fst =
      firstOccurFrom [] (usableKeySeq rows) ∧
    ((products_to_process rows).map Prod.fst).Nodup := by
  refine ⟨productsToProcessGo_keys rows [], ?_⟩
  rw [products_to_process, productsToProcessGo_keys rows []]
  exact firstOccurFrom_nodup (usableKeySeq rows) []

/-! ## Association-list and worker lemmas (upload_goat_images) -/

theorem lookup_aset_self {α : Type} :
    ∀ (m : List (String × α)) (k : String) (v : α),
      (aset m k v).lookup k = some v := by
  intro m
  induction m with
  | nil => intro k v; simp [aset, List.lookup]
  | cons p rest ih =>
    intro k v
    obtain ⟨k1, v1⟩ := p
    by_cases h : k1 = k
    · simp [aset, h, List.lookup]
    · simp only [aset, if_neg h, List.lookup]
      have : (k == k1) = false := by
        simp [beq_iff_eq]
        exact fun he => h he.symm
      rw [this]
      exact ih k v

theorem lookup_aset_ne {α : Type} :
    ∀ (m : List (String × α)) (k q : String) (v : α), q ≠ k →
      (aset m k v).lookup q = m.lookup q := by
  intro m
  induction m with
  | nil =>
    intro k q v h
    simp only [aset, List.lookup]
    have : (q == k) = false := by simp [beq_iff_eq, h]
    rw [this]
  | cons p rest ih =>
    intro k q v h
    obtain ⟨k1, v1⟩ := p
    by_cases hk : k1 = k
    · subst hk
      simp only [aset, if_pos rfl, List.lookup]
      have : (q == k1) = false := by simp [beq_iff_eq, h]
      rw [this]
    · simp only [aset, if_neg hk, List.lookup]
      cases hq : (q == k1) with
      | true => rfl
      | false => exact ih k q v h

theorem lookupTruthy_congr (m m' : List (String × Option String)) (k : String)
    (h : m.lookup k = m'.lookup k) : lookupTruthy m k = lookupTruthy m' k := by
  simp [lookupTruthy, h]

theorem processOne_pid (st : UpSt) (pid picUrl : String) (oc : FetchOutcome) :
    (processOne st pid picUrl oc).2.pid = pid := by
  simp only [processOne]
  by_cases h : lookupTruthy st.urlMap pid = true
  · rw [if_pos h]
  · rw [if_neg h]
    cases oc <;> rfl

theorem processOne_lookup_ne (st : UpSt) (pid picUrl : String)
    (oc : FetchOutcome) (q : String) (h : q ≠ pid) :
    ((processOne st pid picUrl oc).1.urlMap.lookup q = st.urlMap.lookup q) ∧
    ((processOne st pid picUrl oc).1.dimsMap.lookup q = st.dimsMap.lookup q) := by
  simp only [processOne]
  by_cases hsk : lookupTruthy st.urlMap pid = true
  · rw [if_pos hsk]
    exact ⟨rfl, rfl⟩
  · rw [if_neg hsk]
    cases oc with
    | downloadFail => exact ⟨lookup_aset_ne _ _ _ _ h, rfl⟩
    | resizeFail => exact ⟨lookup_aset_ne _ _ _ _ h, rfl⟩
    | uploaded url w ht =>
      by_cases hu : truthyOpt url = true
      · simp only [hu, if_true]
        exact ⟨lookup_aset_ne _ _ _ _ h, lookup_aset_ne _ _ _ _ h⟩
      · have hu2 : truthyOpt url = false := by simpa using hu
        simp only [hu2, if_false]
        exact ⟨lookup_aset_ne _ _ _ _ h, rfl⟩

theorem runItem_preserves (oracle : String → FetchOutcome) (k : String)
    (acc : UpSt × List String) (item : String × String)
    (hk : lookupTruthy acc.1.urlMap k = true) :
    ((runItem oracle acc item).1.urlMap.lookup k = acc.1.urlMap.lookup k) ∧
    ((runItem oracle acc item).1.dimsMap.lookup k = acc.1.dimsMap.lookup k) ∧
    (k ∉ acc.2 → k ∉ (runItem oracle acc item).2) := by
  by_cases hsk : lookupTruthy acc.1.urlMap item.1 = true
  · rw [runItem, if_pos hsk]
    exact ⟨rfl, rfl, fun h => h⟩
  · have hne2 : k ≠ item.1 := fun he => hsk (he ▸ hk)
    have hpl := processOne_lookup_ne acc.1 item.1 item.2 (oracle item.1) k hne2
    have hpid := processOne_pid acc.1 item.1 item.2 (oracle item.1)
    have hne3 : k ≠ (processOne acc.1 item.1 item.2 (oracle item.1)).2.pid := by
      rw [hpid]; exact hne2
    have hmem : k ∉ acc.2 → k ∉ (if (processOne acc.1 item.1 item.2
        (oracle item.1)).2.fetched then acc.2 ++ [item.1] else acc.2) := by
      intro hn
      by_cases hf : (processOne acc.1 item.1 item.2 (oracle item.1)).2.fetched
        = true
      · rw [if_pos hf]
        simp [List.mem_append, hn, hne2]
      · rw [if_neg hf]
        exact hn
    cases hd : (processOne acc.1 item.1 item.2 (oracle item.1)).2.dims with
    | none =>
      simp only [runItem, if_neg hsk, hd]
      exact ⟨(lookup_aset_ne _ _ _ _ hne3).trans hpl.1, hpl.2, hmem⟩
    | some d =>
      simp only [runItem, if_neg hsk, hd]
      exact ⟨(lookup_aset_ne _ _ _ _ hne3).trans hpl.1,
        (lookup_aset_ne _ _ _ _ hne3).trans hpl.2, hmem⟩

theorem runBatch_preserves (oracle : String → FetchOutcome) (k : String) :
    ∀ (batch : List (String × String)) (acc : UpSt × List String),
      lookupTruthy acc.1.urlMap k = true →
      ((runBatch oracle acc batch).1.urlMap.lookup k = acc.1.urlMap.lookup k) ∧
      ((runBatch oracle acc batch).1.dimsMap.lookup k = acc.1.dimsMap.lookup k) ∧
      (k ∉ acc.2 → k ∉ (runBatch oracle acc batch).2) := by
  intro batch
  induction batch with
  | nil => intro acc hk; exact ⟨rfl, rfl, fun h => h⟩
  | cons item rest ih =>
    intro acc hk
    have h1 := runItem_preserves oracle k acc item hk
    have hk2 : lookupTruthy (runItem oracle acc item).1.urlMap k = true := by
      rw [lookupTruthy_congr _ acc.1.urlMap k h1.1]
      exact hk
    have h2 := ih (runItem oracle acc item) hk2
    rw [runBatch, List.foldl_cons]
    exact ⟨(h2.1.trans h1.1 : _), (h2.2.1.trans h1.2.1 : _),
      fun hn => h2.2.2 (h1.2.2 hn)⟩

theorem foldBatches_preserves (oracle : String → FetchOutcome) (k : String) :
    ∀ (bs : List (List (String × String))) (acc : UpSt × List String),
      lookupTruthy acc.1.urlMap k = true →
      ((bs.foldl (runBatch oracle) acc).1.urlMap.lookup k =
        acc.1.urlMap.lookup k) ∧
      ((bs.foldl (runBatch oracle) acc).1.dimsMap.lookup k =
        acc.1.dimsMap.lookup k) ∧
      (k ∉ acc.2 → k ∉ (bs.foldl (runBatch oracle) acc).2) := by
  intro bs
  induction bs with
  | nil => intro acc hk; exact ⟨rfl, rfl, fun h => h⟩
  | cons b rest ih =>
    intro acc hk
    have h1 := runBatch_preserves oracle k b acc hk
    have hk2 : lookupTruthy (runBatch oracle acc b).1.urlMap k = true := by
      rw [lookupTruthy_congr _ acc.1.urlMap k h1.1]
      exact hk
    have h2 := ih (runBatch oracle acc b) hk2
    rw [List.foldl_cons]
    exact ⟨(h2.1.trans h1.1 : _), (h2.2.1.trans h1.2.1 : _),
      fun hn => h2.2.2 (h1.2.2 hn)⟩

theorem runBatch_noop (oracle : String → FetchOutcome) :
    ∀ (batch : List (String × String)) (acc : UpSt × List String),
      (∀ it ∈ batch, lookupTruthy acc.1.urlMap it.1 = true) →
      runBatch oracle acc batch = acc := by
  intro batch
  induction batch with
  | nil => intro acc _; rfl
  | cons item rest ih =>
    intro acc hall
    have hitem : runItem oracle acc item = acc := by
      simp only [runItem, if_pos (hall item (List.mem_cons_self item rest))]
    rw [runBatch, List.foldl_cons, hitem]
    exact ih acc (fun it hit => hall it (List.mem_cons_of_mem item hit))

theorem foldBatches_noop (oracle : String → FetchOutcome) :
    ∀ (bs : List (List (String × String))) (acc : UpSt × List String),
      (∀ b ∈ bs, ∀ it ∈ b, lookupTruthy acc.1.urlMap it.1 = true) →
      bs.foldl (runBatch oracle) acc = acc := by
  intro bs
  induction bs with
  | nil => intro acc _; rfl
  | cons b rest ih =>
    intro acc hall
    have hb : runBatch oracle acc b = acc :=
      runBatch_noop oracle b acc (hall b (List.mem_cons_self b rest))
    rw [List.foldl_cons, hb]
    exact ih acc (fun c hc => hall c (List.mem_cons_of_mem b hc))

theorem mem_of_mem_chunks {α : Type} (n : Nat) :
    ∀ (m : Nat) (l : List α), l.length ≤ m →
      ∀ b ∈ chunks n l, ∀ x ∈ b, x ∈ l := by
  intro m
  induction m with
  | zero =>
    intro l hl b hb x hx
    have hnil : l = [] := List.length_eq_zero.mp (Nat.le_zero.mp hl)
    subst hnil
    simp only [chunks] at hb
    cases hb
  | succ m ih =>
    intro l hl b hb x hx
    cases l with
    | nil =>
      simp only [chunks] at hb
      cases hb
    | cons a as =>
      cases n with
      | zero =>
        simp only [chunks] at hb
        cases hb
      | succ n1 =>
        simp only [chunks] at hb
        rcases List.mem_cons.mp hb with h | h
        · subst h
          exact List.mem_of_mem_take hx
        · have hdrop : ((a :: as).drop (n1 + 1)).length ≤ m := by
            simp only [List.length_cons] at hl
            simp only [List.length_drop, List.length_cons]
            omega
          exact List.mem_of_mem_drop (ih _ hdrop b h x hx)

/-! ## Claim theorems: idempotent resume (C6) and worker state writes (C8) -/

/-- C6: a WorkKey `k` that the pre-existing output resolves to a non-empty
drive URL `u` is never downloaded again on a re-run: it is absent from the
set of downloaded ids, both checkpoint maps keep their resumed entries for
`k`, the output cell for `k` is again `u`; and when every scheduled key is
already resolved (a completed prior run) the re-run performs zero
downloads. -/
theorem idempotent_resume (rows : List InRow) (prev : List PrevRow)
    (batchSize : Nat) (oracle : String → FetchOutcome) (k u : String)
    (hres : (resumeFromPrev prev).urlMap.lookup k = some (some u))
    (hu : u ≠ "") :
    k ∉ (process_all_in_batches rows prev batchSize oracle).2 ∧
    (process_all_in_batches rows prev batchSize oracle).1.urlMap.lookup k =
      some (some u) ∧
    outUrlCell (process_all_in_batches rows prev batchSize oracle).1 k = u ∧
    (∀ d, (resumeFromPrev prev).dimsMap.lookup k = some d →
      (process_all_in_batches rows prev batchSize oracle).1.dimsMap.lookup k =
        some d) ∧
    ((∀ it ∈ products_to_process rows,
        lookupTruthy (resumeFromPrev prev).urlMap it.1 = true) →
      (process_all_in_batches rows prev batchSize oracle).2 = []) := by
  have hk : lookupTruthy (resumeFromPrev prev).urlMap k = true := by
    simp [lookupTruthy, hres, hu]
  have hfold := foldBatches_preserves oracle k
    (chunks batchSize (products_to_process rows)) (resumeFromPrev prev, []) hk
  simp only [process_all_in_batches]
  have hlu : ((chunks batchSize (products_to_process rows)).foldl
      (runBatch oracle) (resumeFromPrev prev, [])).1.urlMap.lookup k =
      some (some u) := hfold.1.trans hres
  refine ⟨hfold.2.2 (List.not_mem_nil k), hlu, ?_, ?_, ?_⟩
  · simp [outUrlCell, hlu, hu]
  · intro d hd
    exact hfold.2.1.trans hd
  · intro hall
    have hnoop := foldBatches_noop oracle
      (chunks batchSize (products_to_process rows)) (resumeFromPrev prev, [])
      (fun b hb it hit => hall it
        (mem_of_mem_chunks batchSize (products_to_process rows).length
          (products_to_process rows) le_rfl b hb it hit))
    rw [hnoop]

/-- Witness for `idempotent_resume`: one input row with key `"A"`, a prior
output resolving `"A"` to `u1` with dimensions 700 by 700, and an oracle
that would fail every download — the re-run downloads nothing and reproduces
the resumed row. -/
theorem idempotent_resume_witness :
    "A" ∉ (process_all_in_batches [⟨"A", "http"⟩] [⟨"A", "u1", "700", "700"⟩]
      50 (fun _ => FetchOutcome.downloadFail)).2 ∧
    (process_all_in_batches [⟨"A", "http"⟩] [⟨"A", "u1", "700", "700"⟩]
      50 (fun _ => FetchOutcome.downloadFail)).1.urlMap.lookup "A" =
      some (some "u1") ∧
    outUrlCell (process_all_in_batches [⟨"A", "http"⟩]
      [⟨"A", "u1", "700", "700"⟩] 50 (fun _ => FetchOutcome.downloadFail)).1
      "A" = "u1" ∧
    (process_all_in_batches [⟨"A", "http"⟩] [⟨"A", "u1", "700", "700"⟩]
      50 (fun _ => FetchOutcome.downloadFail)).1.dimsMap.lookup "A" =
      some (700, 700) ∧
    (process_all_in_batches [⟨"A", "http"⟩] [⟨"A", "u1", "700", "700"⟩]
      50 (fun _ => FetchOutcome.downloadFail)).2 = [] := by
  have h := idempotent_resume [⟨"A", "http"⟩] [⟨"A", "u1", "700", "700"⟩]
    50 (fun _ => FetchOutcome.downloadFail) "A" "u1" (by decide) (by decide)
  exact ⟨h.1, h.2.1, h.2.2.1, h.2.2.2.1 (700, 700) (by decide),
    h.2.2.2.2 (by decide)⟩

/-- Refutation of C8 as stated: the worker `_process_one_product` does write
the shared checkpoint map — running it on an empty state records a failure
entry for its product id, so workers touch shared mutable state beyond
their immutable input and stack. -/
theorem worker_writes_state_counterexample :
    (processOne ⟨[], []⟩ "A" "u" FetchOutcome.downloadFail).1 ≠
      (⟨[], []⟩ : UpSt) := by
  decide

/-- C8 (amended): a worker does write CheckpointState, but only the entries
of its own WorkKey: for any key other than the worker's product id, both
checkpoint maps are untouched by the worker (and the CSV itself is written
only by the batch loop after the gather). -/
theorem worker_writes_only_own_key (st : UpSt) (pid picUrl : String)
    (oc : FetchOutcome) (q : String) (h : q ≠ pid) :
    ((processOne st pid picUrl oc).1.urlMap.lookup q = st.urlMap.lookup q) ∧
    ((processOne st pid picUrl oc).1.dimsMap.lookup q = st.dimsMap.lookup q) :=
  processOne_lookup_ne st pid picUrl oc q h

/-- Witness for `worker_writes_only_own_key`: the worker for `"A"` leaves
the entry of `"B"` unchanged. -/
theorem worker_writes_only_own_key_witness :
    ((processOne ⟨[("B", some "ub")], []⟩ "A" "u"
      FetchOutcome.downloadFail).1.urlMap.lookup "B" =
      ([("B", some "ub")] : List (String × Option String)).lookup "B") ∧
    ((processOne ⟨[("B", some "ub")], []⟩ "A" "u"
      FetchOutcome.downloadFail).1.dimsMap.lookup "B" =
      ([] : List (String × (Int × Int))).lookup "B") :=
  worker_writes_only_own_key ⟨[("B", some "ub")], []⟩ "A" "u"
    FetchOutcome.downloadFail "B" (by decide)

/-! ## Claim theorems: listings CSV duplicate ids (C10) -/

theorem containsId_eq_false (l : List Jval) (v : Jval) :
    containsId l v = false ↔ ∀ w ∈ l, w.pyEq v = false := by
  simp [containsId, List.any_eq_true]

theorem filterNew_spec (written : List Jval) :
    ∀ (ps newps : List Jval), filterNewProducts written ps = some newps →
      ∀ p ∈ newps, (csvIdOf p).truthy = true ∧
        (csvIdOf p).isContainer = false ∧
        containsId written (csvIdOf p) = false := by
  intro ps
  induction ps with
  | nil =>
    intro newps h p hp
    simp only [filterNewProducts, Option.some.injEq] at h
    subst h
    cases hp
  | cons q rest ih =>
    intro newps h p hp
    by_cases ht : (csvIdOf q).truthy = true
    · by_cases hcont : (csvIdOf q).isContainer = true
      · have heq : filterNewProducts written (q :: rest) = none := by
          simp [filterNewProducts, ht, hcont]
        rw [heq] at h
        cases h
      · by_cases hw : containsId written (csvIdOf q) = true
        · have heq : filterNewProducts written (q :: rest) =
              filterNewProducts written rest := by
            simp [filterNewProducts, ht, hcont, hw]
          rw [heq] at h
          exact ih newps h p hp
        · have heq : filterNewProducts written (q :: rest) =
              (filterNewProducts written rest).map (q :: ·) := by
            simp [filterNewProducts, ht, hcont, hw]
          rw [heq] at h
          cases htail : filterNewProducts written rest with
          | none => rw [htail] at h; cases h
          | some tail =>
            rw [htail] at h
            simp only [Option.map_some', Option.some.injEq] at h
            rcases List.mem_cons.mp (h ▸ hp) with hpe | hmem
            · subst hpe
              exact ⟨ht, Bool.eq_false_iff.mpr hcont, Bool.eq_false_iff.mpr hw⟩
            · exact ih tail htail p hmem
    · have ht2 : (csvIdOf q).truthy = false := by simpa using ht
      have heq : filterNewProducts written (q :: rest) =
          filterNewProducts written rest := by
        simp [filterNewProducts, ht2]
      rw [heq] at h
      exact ih newps h p hp

theorem rowIds_eq_map_csvIdOf :
    ∀ (b : List Jval), (∀ p ∈ b, (csvIdOf p).truthy = true) →
      rowIds b = b.map csvIdOf := by
  intro b
  induction b with
  | nil => intro _; rfl
  | cons p rest ih =>
    intro h
    have hp := h p (List.mem_cons_self p rest)
    have hrest := ih (fun q hq => h q (List.mem_cons_of_mem p hq))
    cases hk : p.getKey "id" with
    | none =>
      exfalso
      rw [csvIdOf, hk] at hp
      simp [Jval.truthy] at hp
    | some v =>
      have hhead : (p.getKey "id").getD (Jval.str "N/A") = v := by rw [hk]; rfl
      have hchead : csvIdOf p = v := by rw [csvIdOf, hk]; rfl
      calc rowIds (p :: rest)
          = ((p.getKey "id").getD (Jval.str "N/A")) :: rowIds rest := rfl
        _ = v :: rowIds rest := by rw [hhead]
        _ = v :: rest.map csvIdOf := by rw [hrest]
        _ = (csvIdOf p) :: rest.map csvIdOf := by rw [hchead]
        _ = (p :: rest).map csvIdOf := rfl

theorem idsToAdd_eq_rowIds :
    ∀ (b : List Jval), (∀ p ∈ b, (csvIdOf p).truthy = true) →
      idsToAdd b = rowIds b := by
  intro b
  induction b with
  | nil => intro _; rfl
  | cons p rest ih =>
    intro h
    have hp := h p (List.mem_cons_self p rest)
    have hrest := ih (fun q hq => h q (List.mem_cons_of_mem p hq))
    cases hk : p.getKey "id" with
    | none =>
      exfalso
      rw [csvIdOf, hk] at hp
      simp [Jval.truthy] at hp
    | some v =>
      have hv : v.truthy = true := by
        rw [csvIdOf, hk] at hp
        simpa using hp
      have hnn : v.isNull = false := by
        cases v <;> simp_all [Jval.truthy, Jval.isNull]
      have hone : idsToAdd (p :: rest) = v :: idsToAdd rest := by
        simp [idsToAdd, List.filterMap_cons, hk, hnn]
      have hhead : (p.getKey "id").getD (Jval.str "N/A") = v := by rw [hk]; rfl
      calc idsToAdd (p :: rest) = v :: idsToAdd rest := hone
        _ = v :: rowIds rest := by rw [hrest]
        _ = ((p.getKey "id").getD (Jval.str "N/A")) :: rowIds rest := by
            rw [hhead]
        _ = rowIds (p :: rest) := rfl

theorem scrapeUrlFrom_spec (oracle : String → Nat → Option Jval)
    (url : String) :
    ∀ (fuel page : Nat) (written : List Jval),
      (∀ b ∈ (scrapeUrlFrom oracle url page written fuel).batches,
        idsToAdd b = rowIds b ∧
        ∀ y ∈ rowIds b, containsId written y = false) ∧
      (scrapeUrlFrom oracle url page written fuel).batches.Pairwise
        (fun b c => ∀ y ∈ rowIds c, containsId (rowIds b) y = false) ∧
      (scrapeUrlFrom oracle url page written fuel).written =
        written ++ ((scrapeUrlFrom oracle url page written fuel).batches.map
          idsToAdd).flatten := by
  intro fuel
  induction fuel with
  | zero =>
    intro page written
    exact ⟨fun b hb => absurd hb (List.not_mem_nil b), List.Pairwise.nil,
      by simp [scrapeUrlFrom]⟩
  | succ fuel ih =>
    intro page written
    cases ho : oracle url page with
    | none =>
      have heq : scrapeUrlFrom oracle url page written (fuel + 1) =
          ⟨[], written, false⟩ := by
        simp [scrapeUrlFrom, ho]
      rw [heq]
      exact ⟨fun b hb => absurd hb (List.not_mem_nil b), List.Pairwise.nil,
        by simp⟩
    | some d =>
      cases hpo : productsOf d with
      | none =>
        have heq : scrapeUrlFrom oracle url page written (fuel + 1) =
            ⟨[], written, false⟩ := by
          simp [scrapeUrlFrom, ho, hpo]
        rw [heq]
        exact ⟨fun b hb => absurd hb (List.not_mem_nil b), List.Pairwise.nil,
          by simp⟩
      | some ps =>
        cases hf : filterNewProducts written ps with
        | none =>
          have heq : scrapeUrlFrom oracle url page written (fuel + 1) =
              ⟨[], written, true⟩ := by
            simp [scrapeUrlFrom, ho, hpo, hf]
          rw [heq]
          exact ⟨fun b hb => absurd hb (List.not_mem_nil b), List.Pairwise.nil,
            by simp⟩
        | some newps =>
          have hfacts := filterNew_spec written ps newps hf
          have htruthy : ∀ p ∈ newps, (csvIdOf p).truthy = true :=
            fun p hp => (hfacts p hp).1
          have hids : idsToAdd newps = rowIds newps :=
            idsToAdd_eq_rowIds newps htruthy
          have hmap : rowIds newps = newps.map csvIdOf :=
            rowIds_eq_map_csvIdOf newps htruthy
          have hfresh : ∀ y ∈ rowIds newps, containsId written y = false := by
            intro y hy
            rw [hmap] at hy
            obtain ⟨p, hp, hpe⟩ := List.mem_map.mp hy
            rw [← hpe]
            exact (hfacts p hp).2.2
          by_cases he : newps.isEmpty = true
          · have heq : scrapeUrlFrom oracle url page written (fuel + 1) =
                ⟨[], written, false⟩ := by
              simp [scrapeUrlFrom, ho, hpo, hf, he]
            rw [heq]
            exact ⟨fun b hb => absurd hb (List.not_mem_nil b),
              List.Pairwise.nil, by simp⟩
          · by_cases hlim : (ps.length : Int) < pageLimitOf d
            · have heq : scrapeUrlFrom oracle url page written (fuel + 1) =
                  ⟨[newps], written ++ idsToAdd newps, false⟩ := by
                simp [scrapeUrlFrom, ho, hpo, hf, he, hlim]
              rw [heq]
              refine ⟨?_, List.pairwise_singleton _ _, by simp⟩
              intro b hb
              rcases List.mem_singleton.mp hb with rfl
              exact ⟨hids, hfresh⟩
            · have heq : scrapeUrlFrom oracle url page written (fuel + 1) =
                  ⟨newps :: (scrapeUrlFrom oracle url (page + 1)
                      (written ++ idsToAdd newps) fuel).batches,
                    (scrapeUrlFrom oracle url (page + 1)
                      (written ++ idsToAdd newps) fuel).written,
                    (scrapeUrlFrom oracle url (page + 1)
                      (written ++ idsToAdd newps) fuel).crashed⟩ := by
                simp [scrapeUrlFrom, ho, hpo, hf, he, hlim]
              rw [heq]
              have hrec := ih (page + 1) (written ++ idsToAdd newps)
              refine ⟨?_, ?_, ?_⟩
              · intro b hb
                rcases List.mem_cons.mp hb with rfl | hmem
                · exact ⟨hids, hfresh⟩
                · refine ⟨(hrec.1 b hmem).1, fun y hy => ?_⟩
                  have hfr := (hrec.1 b hmem).2 y hy
                  rw [containsId, List.any_append,
                    Bool.or_eq_false_iff] at hfr
                  exact hfr.1
              · refine List.Pairwise.cons ?_ hrec.2.1
                intro c hc y hy
                have hfr := (hrec.1 c hc).2 y hy
                rw [containsId, List.any_append, Bool.or_eq_false_iff] at hfr
                rw [← hids]
                exact hfr.2
              · rw [hrec.2.2]
                simp [List.append_assoc]

theorem scrapeAll_go (oracle : String → Nat → Option Jval) (fuel : Nat) :
    ∀ (urls : List String) (acc : UrlScrape),
      acc.batches.Pairwise
        (fun b c => ∀ y ∈ rowIds c, containsId (rowIds b) y = false) →
      (∀ b ∈ acc.batches, idsToAdd b = rowIds b ∧
        ∀ w ∈ rowIds b, w ∈ acc.written) →
      (urls.foldl (fun acc url =>
        if acc.crashed then acc
        else
          let r := scrapeUrlFrom oracle url 1 acc.written fuel
          ⟨acc.batches ++ r.batches, r.written, r.crashed⟩)
        acc).batches.Pairwise
        (fun b c => ∀ y ∈ rowIds c, containsId (rowIds b) y = false) := by
  intro urls
  induction urls with
  | nil => intro acc hpw _; exact hpw
  | cons url rest ih =>
    intro acc hpw hinv
    rw [List.foldl_cons]
    by_cases hcr : acc.crashed = true
    · have hstep : (if acc.crashed = true then acc
          else
            let r := scrapeUrlFrom oracle url 1 acc.written fuel
            (⟨acc.batches ++ r.batches, r.written, r.crashed⟩ : UrlScrape)) =
          acc := by
        simp [hcr]
      rw [hstep]
      exact ih acc hpw hinv
    · have hstep : (if acc.crashed = true then acc
          else
            let r := scrapeUrlFrom oracle url 1 acc.written fuel
            (⟨acc.batches ++ r.batches, r.written, r.crashed⟩ : UrlScrape)) =
          ⟨acc.batches ++ (scrapeUrlFrom oracle url 1 acc.written fuel).batches,
            (scrapeUrlFrom oracle url 1 acc.written fuel).written,
            (scrapeUrlFrom oracle url 1 acc.written fuel).crashed⟩ := by
        simp [hcr]
      rw [hstep]
      have hspec := scrapeUrlFrom_spec oracle url fuel 1 acc.written
      refine ih _ ?_ ?_
      · refine List.pairwise_append.mpr ⟨hpw, hspec.2.1, ?_⟩
        intro b hb c hc y hy
        have hfr := (hspec.1 c hc).2 y hy
        rw [containsId_eq_false] at hfr ⊢
        intro w hw
        exact hfr w ((hinv b hb).2 w hw)
      · intro b hb
        rcases List.mem_append.mp hb with hmem | hmem
        · refine ⟨(hinv b hmem).1, fun w hw => ?_⟩
          rw [hspec.2.2]
          exact List.mem_append_left _ ((hinv b hmem).2 w hw)
        · refine ⟨(hspec.1 b hmem).1, fun w hw => ?_⟩
          rw [hspec.2.2]
          refine List.mem_append_right _ (List.mem_flatten.mpr
            ⟨idsToAdd b, List.mem_map_of_mem _ hmem, ?_⟩)
          rw [(hspec.1 b hmem).1]
          exact hw

/-- C10 (amended): across different page writes — later pages of the same
search URL and all pages of later URLs — no product id already written is
written again: the batches of rows appended to the listings CSV are pairwise
disjoint on their Product ID cells.  (Within one page batch, however, the
written-ids set is only updated after the page is appended, so a product
occurring twice on one page is written twice; see the counterexample.) -/
theorem listings_no_dup_across_pages (oracle : String → Nat → Option Jval)
    (fuel : Nat) :
    (scrape_all_pages oracle fuel).batches.Pairwise
      (fun b c => ∀ y ∈ rowIds c, containsId (rowIds b) y = false) :=
  scrapeAll_go oracle fuel SEARCH_URLS ⟨[], [], false⟩ List.Pairwise.nil
    (fun b hb => absurd hb (List.not_mem_nil b))

/-- Refutation of C10 as stated: a page carrying the same product twice
makes `scrape_all_pages` write two rows with the same Product ID `"x"` —
the output CSV id cells are not pairwise distinct. -/
theorem listings_dup_within_page_counterexample :
    ¬ (allRowIds (scrape_all_pages exListOracle 1)).Pairwise
      (fun a b => a ≠ b) := by
  intro h
  have he : allRowIds (scrape_all_pages exListOracle 1) =
      [Jval.str "x", Jval.str "x"] := rfl
  rw [he] at h
  exact (List.pairwise_cons.mp h).1 (Jval.str "x")
    (List.mem_singleton.mpr rfl) rfl
